import Mathlib

/-!
Shallow embedding of the MealSwipe price-quoting engine.

The embedded code is `supabase/functions/quote/index.ts` (the quote edge
function), `context/AppContext.tsx` (`generateGroceryList`) and the
`normalizeUnit` table of the seeding script.  JavaScript numbers are modelled
as exact rationals (`ℚ`); the floating-point representation is not observable
for any of the properties below.  JavaScript `Map`s are modelled as
association lists in insertion order with overwriting `set` (`jsSet`/`jsGet`).
`trim`/`toLowerCase`/`toUpperCase` are modelled over the ASCII range.

All arithmetic goes through kernel-computable wrappers (`qadd`, `qmul`,
`qdiv`, `qlt`, `qle`, `ratCeil`, …) that are proved equal to the Mathlib
operations, so that concrete runs of the model evaluate by `decide`.
-/

/-- Addition on `ℚ` by the textbook cross-multiplication formula; proved equal
to `· + ·` in `qadd_eq`.  Used so that the model evaluates inside the kernel. -/
def qadd (a b : ℚ) : ℚ := Rat.divInt (a.num * b.den + b.num * a.den) (a.den * b.den)

/-- Multiplication on `ℚ`, kernel-computable; equals `· * ·` by `qmul_eq`. -/
def qmul (a b : ℚ) : ℚ := Rat.divInt (a.num * b.num) (a.den * b.den)

/-- Division on `ℚ`, kernel-computable; equals `· / ·` by `qdiv_eq`
(including the `b = 0` case, where both sides are `0`). -/
def qdiv (a b : ℚ) : ℚ := Rat.divInt (a.num * b.den) (a.den * b.num)

/-- Strict comparison on `ℚ` as a boolean, kernel-computable. -/
def qlt (a b : ℚ) : Bool := a.num * b.den < b.num * a.den

/-- Non-strict comparison on `ℚ` as a boolean, kernel-computable. -/
def qle (a b : ℚ) : Bool := a.num * b.den ≤ b.num * a.den

/-- Floor of a rational as an integer, kernel-computable. -/
def ratFloor (q : ℚ) : ℤ := q.num / (q.den : ℤ)

/-- Ceiling of a rational as an integer, kernel-computable; this is the model
of JavaScript `Math.ceil`. -/
def ratCeil (q : ℚ) : ℤ := -((-q).num / (((-q).den : ℤ)))

/-! ### JavaScript `Map` as an association list

`jsSet` overwrites in place (`Map.prototype.set` keeps the original insertion
position of an existing key) and appends new keys; `jsGet` is
`Map.prototype.get`.  Maps built from `[]` by `jsSet` have distinct keys, so
replacing the first occurrence is exact. -/

def jsSet {α β : Type} [DecidableEq α] : List (α × β) → α → β → List (α × β)
  | [], k, v => [(k, v)]
  | p :: rest, k, v => if p.1 = k then (k, v) :: rest else p :: jsSet rest k v

def jsGet {α β : Type} [DecidableEq α] : List (α × β) → α → Option β
  | [], _ => none
  | p :: rest, k => if p.1 = k then some p.2 else jsGet rest k

/-! ### ASCII models of the JavaScript string operations used by the code -/

/-- Whitespace test used by the model of `String.prototype.trim`. -/
def wsChar (c : Char) : Bool :=
  c = ' ' ∨ c = '\t' ∨ c = '\n' ∨ c = '\r' ∨ c = '\x0b' ∨ c = '\x0c'

/-- ASCII model of the per-character lowering done by `toLowerCase`. -/
def lowerChar (c : Char) : Char :=
  if 65 ≤ c.toNat ∧ c.toNat ≤ 90 then Char.ofNat (c.toNat + 32) else c

/-- ASCII model of the per-character raising done by `toUpperCase`. -/
def upperChar (c : Char) : Char :=
  if 97 ≤ c.toNat ∧ c.toNat ≤ 122 then Char.ofNat (c.toNat - 32) else c

def trimChars (l : List Char) : List Char :=
  ((l.dropWhile wsChar).reverse.dropWhile wsChar).reverse

/-- Model of JavaScript `s.trim()`. -/
def jsTrim (s : String) : String := ⟨trimChars s.data⟩

/-- Model of JavaScript `s.toLowerCase()` (ASCII range). -/
def jsLower (s : String) : String := ⟨s.data.map lowerChar⟩

/-- Model of JavaScript `s.toUpperCase()` (ASCII range). -/
def jsUpper (s : String) : String := ⟨s.data.map upperChar⟩

/-! ### Data model of the quote edge function (`supabase/functions/quote/index.ts`) -/

/-- Canonical unit families (`UnitType` in `providers/providerApi.ts`). -/
inductive UnitType
  | GRAM
  | ML
  | COUNT
deriving DecidableEq

structure CanonicalItemRow where
  id : String
  name : String
  unit_type : UnitType
  aliases : Option (List String)
deriving DecidableEq

structure StoreProductRow where
  id : String
  store : String
  provider_product_id : String
  title : String
  pack_size_value : ℚ
  pack_size_unit : UnitType
  product_url : Option String
  image_url : Option String
  active : Bool
deriving DecidableEq

structure StoreMappingRow where
  canonical_item_id : String
  priority : ℚ
  store_products : Option StoreProductRow
deriving DecidableEq

/-- A `price_cache` row.  The `fetched_at`/`ttl_expires_at` ISO strings of the
source are modelled directly as their epoch-millisecond values, which is all
the code observes of them (via `new Date(...).getTime()`). -/
structure PriceCacheRow where
  store_product_id : String
  postcode_area : Option String
  price : ℚ
  unit_price : Option ℚ
  promo_text : Option String
  in_stock : Option Bool
  currency : String
  fetched_at : ℚ
  ttl_expires_at : ℚ
deriving DecidableEq

structure RequiredAmount where
  value : ℚ
  unit : UnitType
deriving DecidableEq

structure QuoteRequestItem where
  ingredientName : String
  required : RequiredAmount
deriving DecidableEq

structure QuoteRequestBody where
  stores : List String
  postcode : Option String
  items : List QuoteRequestItem
deriving DecidableEq

structure MissingItem where
  ingredientName : String
  reason : String
deriving DecidableEq

structure PackSizeOut where
  value : ℚ
  unit : UnitType
deriving DecidableEq

structure LineItem where
  canonicalItemId : String
  canonicalName : String
  storeProductId : String
  productTitle : String
  packSize : PackSizeOut
  required : RequiredAmount
  packsNeeded : ℚ
  price : ℚ
  unitPrice : Option ℚ
  lineTotal : ℚ
  consumedEstimate : ℚ
  currency : String
  promoText : Option String
  inStock : Option Bool
  productUrl : Option String
  imageUrl : Option String
  priceSource : String
  fetchedAt : ℚ
deriving DecidableEq

structure StoreQuote where
  store : String
  basketTotal : ℚ
  consumedEstimate : ℚ
  lastUpdated : ℚ
  lineItems : List LineItem
  missingItems : List MissingItem
  missingCount : ℕ
  warnings : List String
deriving DecidableEq

structure QuoteMeta where
  postcodeArea : Option String
  ttlHours : ℕ
deriving DecidableEq

structure QuoteResponse where
  currency : String
  quotes : List StoreQuote
  meta : QuoteMeta
deriving DecidableEq

/-- The backing store seen by the edge function: the result of the
`canonical_items` query, the raw join rows behind the
`canonical_to_store_product` query, the raw `price_cache` table, and
per-store fault injection for the two in-loop queries (a `some msg` models
the supabase client returning an error object for the query of that store). -/
structure Backend where
  canonicalResult : Except String (List CanonicalItemRow)
  mappingTable : List StoreMappingRow
  mappingError : String → Option String
  priceTable : List PriceCacheRow
  priceError : String → Option String

/-! ### The quote edge function, step by step -/

/-- The `normalizeKey` of the source: `value.trim().toLowerCase()`. -/
def normalizeKey (s : String) : String := ⟨(trimChars s.data).map lowerChar⟩

/-- The `extractPostcodeArea` of the source.  After trimming, `parts[0]` of the
`split(/\s+/)` is exactly the maximal leading run of non-whitespace
characters, which is how it is modelled here. -/
def extractPostcodeArea (postcode : Option String) : Option String :=
  match postcode with
  | none => none
  | some p =>
    let trimmed := jsUpper (jsTrim p)
    if trimmed = "" then none
    else some ⟨trimmed.data.takeWhile (fun c => !wsChar c)⟩

/-- The `isCacheFresh` of the source: `new Date(ttl_expires_at).getTime() > nowMs`. -/
def isCacheFresh (cache : PriceCacheRow) (nowMs : ℚ) : Bool :=
  qlt nowMs cache.ttl_expires_at

/-- The `ceilPacks` of the source: `packSize <= 0 ? 0 : Math.ceil(required / packSize)`. -/
def ceilPacks (required packSize : ℚ) : ℚ :=
  if qle packSize 0 then 0 else ((ratCeil (qdiv required packSize) : ℤ) : ℚ)

/-- The `canonicalLookup` map: every row registers its normalized `name` and
then each normalized alias, later registrations overwriting earlier ones. -/
def buildCanonicalLookup (rows : List CanonicalItemRow) : List (String × CanonicalItemRow) :=
  rows.foldl
    (fun m row =>
      (row.aliases.getD []).foldl (fun m' a => jsSet m' (normalizeKey a) row)
        (jsSet m (normalizeKey row.name) row))
    []

/-- One step of the aggregation loop over the request items: resolve the
ingredient name; on a miss push `no_canonical_match`, on a unit family
mismatch push `unit_mismatch`, otherwise accumulate the required value into
the entry keyed by the canonical id. -/
def aggStep (lookup : List (String × CanonicalItemRow))
    (st : List (String × CanonicalItemRow × ℚ) × List MissingItem) (item : QuoteRequestItem) :
    List (String × CanonicalItemRow × ℚ) × List MissingItem :=
  match jsGet lookup (normalizeKey item.ingredientName) with
  | none => (st.1, st.2 ++ [{ ingredientName := item.ingredientName, reason := "no_canonical_match" }])
  | some canonical =>
    if canonical.unit_type ≠ item.required.unit then
      (st.1, st.2 ++ [{ ingredientName := item.ingredientName, reason := "unit_mismatch" }])
    else
      match jsGet st.1 canonical.id with
      | some existing => (jsSet st.1 canonical.id (existing.1, qadd existing.2 item.required.value), st.2)
      | none => (jsSet st.1 canonical.id (canonical, item.required.value), st.2)

/-- The `aggregated` map and `baseMissingItems` list built from the request
items (insertion-ordered, as a JavaScript `Map`). -/
def aggregateItems (lookup : List (String × CanonicalItemRow)) (items : List QuoteRequestItem) :
    List (String × CanonicalItemRow × ℚ) × List MissingItem :=
  items.foldl (aggStep lookup) ([], [])

/-- The rows returned by the `canonical_to_store_product` query for one store:
rows restricted to the requested canonical ids, with the embedded
`store_products` record nulled out unless its `store` matches and it is
`active` (PostgREST embedded-resource filter semantics, which is why the
source then skips rows with `store_products == null`). -/
def mappingQuery (table : List StoreMappingRow) (ids : List String) (store : String) :
    List StoreMappingRow :=
  (table.filter (fun r => ids.contains r.canonical_item_id)).map (fun r =>
    { r with store_products :=
        match r.store_products with
        | some p => if p.store == store && p.active then some p else none
        | none => none })

/-- One step of the `mappingByCanonical` construction: skip rows without a
store product, otherwise keep the row if there is no entry yet or its
`priority` is `>=` that of the current entry. -/
def mappingStep (m : List (String × StoreMappingRow)) (row : StoreMappingRow) :
    List (String × StoreMappingRow) :=
  match row.store_products with
  | none => m
  | some _ =>
    match jsGet m row.canonical_item_id with
    | none => jsSet m row.canonical_item_id row
    | some existing =>
      if qle existing.priority row.priority then jsSet m row.canonical_item_id row else m

def buildMappingByCanonical (rows : List StoreMappingRow) : List (String × StoreMappingRow) :=
  rows.foldl mappingStep []

/-- The `price_cache` query for one store: rows whose `store_product_id` is in
the batched id list and whose `postcode_area` equals the cache postcode. -/
def priceQuery (table : List PriceCacheRow) (ids : List String) (cachePostcode : String) :
    List PriceCacheRow :=
  table.filter (fun r => ids.contains r.store_product_id && r.postcode_area == some cachePostcode)

/-- JavaScript truthiness of the `unitPrice` value (`null`, `0` falsy). -/
def jsTruthy (o : Option ℚ) : Bool :=
  match o with
  | none => false
  | some v => decide (v ≠ 0)

inductive ItemOutcome
  | miss (m : MissingItem)
  | line (li : LineItem)
deriving DecidableEq

/-- The body of the per-item loop of the store quote: resolve the mapping and
the cached price, classify freshness, and build either a `missingItems` entry
or a line item. -/
def processEntry (mbc : List (String × StoreMappingRow)) (priceCache : List (String × PriceCacheRow))
    (nowMs : ℚ) (entry : String × CanonicalItemRow × ℚ) : ItemOutcome :=
  match jsGet mbc entry.1 with
  | none => ItemOutcome.miss { ingredientName := entry.2.1.name, reason := "no_store_mapping" }
  | some mapping =>
    match mapping.store_products with
    | none => ItemOutcome.miss { ingredientName := entry.2.1.name, reason := "no_store_mapping" }
    | some storeProduct =>
      if storeProduct.pack_size_unit ≠ entry.2.1.unit_type then
        ItemOutcome.miss { ingredientName := entry.2.1.name, reason := "unit_mismatch" }
      else
        match jsGet priceCache storeProduct.id with
        | none => ItemOutcome.miss { ingredientName := entry.2.1.name, reason := "no_cached_price" }
        | some priceRow =>
          let packSize := storeProduct.pack_size_value
          let packsNeeded := ceilPacks entry.2.2 packSize
          let lineTotal := qmul packsNeeded priceRow.price
          let unitPrice : Option ℚ :=
            match priceRow.unit_price with
            | some up => some up
            | none => if qlt 0 packSize then some (qdiv priceRow.price packSize) else none
          ItemOutcome.line {
            canonicalItemId := entry.2.1.id
            canonicalName := entry.2.1.name
            storeProductId := storeProduct.id
            productTitle := storeProduct.title
            packSize := { value := packSize, unit := storeProduct.pack_size_unit }
            required := { value := entry.2.2, unit := entry.2.1.unit_type }
            packsNeeded := packsNeeded
            price := priceRow.price
            unitPrice := if jsTruthy unitPrice then unitPrice else none
            lineTotal := lineTotal
            consumedEstimate :=
              if jsTruthy unitPrice then qmul entry.2.2 (unitPrice.getD 0) else lineTotal
            currency := priceRow.currency
            promoText := priceRow.promo_text
            inStock := priceRow.in_stock
            productUrl := storeProduct.product_url
            imageUrl := storeProduct.image_url
            priceSource := if isCacheFresh priceRow nowMs then "cached" else "stale"
            fetchedAt := priceRow.fetched_at }

/-- Accumulator of the per-item loop: line items, missing items (seeded with
`baseMissingItems`), running totals, latest `fetched_at` and stale count. -/
structure QuoteAcc where
  lineItems : List LineItem
  missing : List MissingItem
  basketTotal : ℚ
  consumed : ℚ
  latest : ℚ
  staleCount : ℕ
deriving DecidableEq

def QuoteAcc.start (baseMissing : List MissingItem) : QuoteAcc :=
  { lineItems := [], missing := baseMissing, basketTotal := 0, consumed := 0, latest := 0,
    staleCount := 0 }

def quoteFoldStep (mbc : List (String × StoreMappingRow))
    (priceCache : List (String × PriceCacheRow)) (nowMs : ℚ)
    (acc : QuoteAcc) (entry : String × CanonicalItemRow × ℚ) : QuoteAcc :=
  match processEntry mbc priceCache nowMs entry with
  | ItemOutcome.miss m => { acc with missing := acc.missing ++ [m] }
  | ItemOutcome.line li =>
    { acc with
      lineItems := acc.lineItems ++ [li]
      basketTotal := qadd acc.basketTotal li.lineTotal
      consumed := qadd acc.consumed li.consumedEstimate
      latest := if qlt acc.latest li.fetchedAt then li.fetchedAt else acc.latest
      staleCount := acc.staleCount + (if li.priceSource == "stale" then 1 else 0) }

/-- Model of `Number(x.toFixed(2))`: round to two decimal places.  The claims
below never depend on the tie-breaking of `toFixed`, only on this being a
deterministic function. -/
def round2 (q : ℚ) : ℚ :=
  Rat.divInt (ratFloor (qadd (qmul q 100) (mkRat 1 2))) 100

def basketIncompleteMsg : String := "Some items are missing. Prices may be incomplete."

def stalePricesMsg : String := "Some prices are stale. Refresh prices for the latest data."

/-- The `storeProductIds` batch of the source:
`Array.from(mappingByCanonical.values()).map(row => row.store_products?.id).filter(Boolean)`. -/
def storeIdsOf (mbc : List (String × StoreMappingRow)) : List String :=
  ((mbc.map (fun p => p.2.store_products)).filterMap
    (fun o => Option.map (fun sp => sp.id) o)).filter (fun s => !(s == ""))

/-- The price-cache fetch of the source: skipped (empty result) when there are
no store product ids, otherwise the batched query, which may fail. -/
def fetchPriceRows (b : Backend) (store : String) (spIds : List String) (cachePostcode : String) :
    Except String (List PriceCacheRow) :=
  if spIds.isEmpty then Except.ok []
  else
    match b.priceError store with
    | some e => Except.error ("Failed to load price cache: " ++ e)
    | none => Except.ok (priceQuery b.priceTable spIds cachePostcode)

/-- The per-store body of the `for (const store of stores)` loop.  A failing
mapping or price-cache query is a thrown error (`Except.error`), exactly as
the `throw new Error(...)` of the source. -/
def quoteStore (b : Backend) (cachePostcode : String) (nowMs : ℚ)
    (aggregated : List (String × CanonicalItemRow × ℚ)) (baseMissing : List MissingItem)
    (canonicalIds : List String) (store : String) : Except String StoreQuote :=
  match b.mappingError store with
  | some e => Except.error ("Failed to load store mappings: " ++ e)
  | none =>
    let mbc := buildMappingByCanonical (mappingQuery b.mappingTable canonicalIds store)
    match fetchPriceRows b store (storeIdsOf mbc) cachePostcode with
    | Except.error e => Except.error e
    | Except.ok cacheRows =>
      let priceCache := cacheRows.foldl (fun m r => jsSet m r.store_product_id r) []
      let res := aggregated.foldl (quoteFoldStep mbc priceCache nowMs) (QuoteAcc.start baseMissing)
      let totalItemsCount := aggregated.length + baseMissing.length
      let missFrac : ℚ :=
        if totalItemsCount = 0 then 0 else qdiv (res.missing.length : ℚ) (totalItemsCount : ℚ)
      Except.ok {
        store := store
        basketTotal := round2 res.basketTotal
        consumedEstimate := round2 res.consumed
        lastUpdated := if res.latest ≠ 0 then res.latest else nowMs
        lineItems := res.lineItems
        missingItems := res.missing
        missingCount := res.missing.length
        warnings :=
          (if qlt (mkRat 1 5) missFrac then [basketIncompleteMsg] else []) ++
          (if 0 < res.staleCount then [stalePricesMsg] else []) }

/-- The POST handler of the edge function (the happy path of `serve`), from a
parsed body to either the response payload or a thrown error caught by the
outer `catch` (which the source maps to a 500 response without quotes).  The
400 validation response is `Except.error` as well. -/
def handleQuote (b : Backend) (nowMs : ℚ) (body : QuoteRequestBody) :
    Except String QuoteResponse :=
  let postcodeArea := extractPostcodeArea body.postcode
  let cachePostcode := postcodeArea.getD "GLOBAL"
  if body.stores.isEmpty || body.items.isEmpty then
    Except.error "stores and items are required."
  else
    match b.canonicalResult with
    | Except.error e => Except.error ("Failed to load canonical items: " ++ e)
    | Except.ok canonicalRows =>
      let st := aggregateItems (buildCanonicalLookup canonicalRows) body.items
      match body.stores.mapM
          (fun store => quoteStore b cachePostcode nowMs st.1 st.2 (st.1.map Prod.fst) store) with
      | Except.error e => Except.error e
      | Except.ok quotes =>
        Except.ok { currency := "GBP", quotes := quotes,
                    meta := { postcodeArea := postcodeArea, ttlHours := 24 } }

/-! ### `generateGroceryList` aggregation (`context/AppContext.tsx`)

The fields are optional where the source guards at runtime
(the string type test on `canonicalName`, the falsiness test on `rawName`,
`Number.isFinite(quantity)`): a `none` models a missing/non-string/non-finite
value. -/

structure AppIngredient where
  name : Option String
  canonicalName : Option String
  quantity : Option ℚ
  unit : Option String
  category : Option String
  price : Option ℚ
deriving DecidableEq

structure AppRecipe where
  id : String
  name : String
  servings : ℚ
  ingredients : List AppIngredient
deriving DecidableEq

structure AppMenuItem where
  recipeId : String
  servings : ℚ
deriving DecidableEq

structure GroceryItem where
  id : String
  ingredientName : String
  canonicalName : String
  quantity : ℚ
  unit : String
  category : String
  estimatedPrice : ℚ
  isChecked : Bool
  isShared : Bool
  sources : List String
deriving DecidableEq

/-- The per-ingredient body of `generateGroceryList`: create the entry on
first touch, then accumulate `quantity * scale` and `price * scale` when
finite, record the source recipe and the shared flag. -/
def ingStep (scale : ℚ) (recipeName : String) (m : List (String × GroceryItem))
    (ing : AppIngredient) : List (String × GroceryItem) :=
  match (match ing.canonicalName with
         | some s => some s
         | none => ing.name) with
  | none => m
  | some rn =>
    if rn = "" then m
    else
      let key := jsLower rn
      let base :=
        match jsGet m key with
        | some g => g
        | none =>
          { id := "grocery_" ++ key, ingredientName := ing.name.getD rn, canonicalName := rn,
            quantity := 0, unit := ing.unit.getD "piece", category := ing.category.getD "Uncategorized",
            estimatedPrice := 0, isChecked := false, isShared := false, sources := [] }
      let g1 :=
        { base with
          quantity :=
            match ing.quantity with
            | some q => qadd base.quantity (qmul q scale)
            | none => base.quantity
          estimatedPrice :=
            match ing.price with
            | some p => qadd base.estimatedPrice (qmul p scale)
            | none => base.estimatedPrice }
      let g2 :=
        if g1.sources.contains recipeName then g1
        else { g1 with sources := g1.sources ++ [recipeName] }
      let g3 := if 1 < g2.sources.length then { g2 with isShared := true } else g2
      jsSet m key g3

/-- The per-menu-item body of `generateGroceryList`: look the recipe up
(`getRecipeById`, a fixed lookup during the loop), skip unknown recipes, and
fold the ingredients of the recipe at scale `servings / recipe.servings`. -/
def menuStep (getRecipe : String → Option AppRecipe) (m : List (String × GroceryItem))
    (mi : AppMenuItem) : List (String × GroceryItem) :=
  match getRecipe mi.recipeId with
  | none => m
  | some recipe =>
    recipe.ingredients.foldl (ingStep (qdiv mi.servings recipe.servings) recipe.name) m

/-- The `aggregated` record of `generateGroceryList` (before the pack-size
hint post-processing, which maps entries one by one). -/
def groceryAgg (getRecipe : String → Option AppRecipe) (menu : List AppMenuItem) :
    List (String × GroceryItem) :=
  menu.foldl (menuStep getRecipe) []

/-! ### `normalizeUnit` (seeding script) -/

/-- The `normalizeUnit` of the seeding script: the fixed case-insensitive
conversion table with the catch-all `COUNT` fallback. -/
def normalizeUnit (unit : String) (value : ℚ) : UnitType × ℚ :=
  let normalized := normalizeKey unit
  if ["g", "gram", "grams"].contains normalized then (UnitType.GRAM, value)
  else if normalized = "kg" then (UnitType.GRAM, qmul value 1000)
  else if ["ml"].contains normalized then (UnitType.ML, value)
  else if normalized = "l" then (UnitType.ML, qmul value 1000)
  else if normalized = "tsp" then (UnitType.ML, qmul value 5)
  else if normalized = "tbsp" then (UnitType.ML, qmul value 15)
  else if ["piece", "pieces", "clove", "cloves"].contains normalized then (UnitType.COUNT, value)
  else (UnitType.COUNT, value)

/-- The conversion table exactly as the specification words it: unit family
and multiplier per recognized spelling. -/
def specUnitTable : List (String × UnitType × ℚ) :=
  [("g", UnitType.GRAM, 1), ("gram", UnitType.GRAM, 1), ("grams", UnitType.GRAM, 1),
   ("kg", UnitType.GRAM, 1000),
   ("ml", UnitType.ML, 1), ("l", UnitType.ML, 1000),
   ("tsp", UnitType.ML, 5), ("tbsp", UnitType.ML, 15),
   ("piece", UnitType.COUNT, 1), ("pieces", UnitType.COUNT, 1),
   ("clove", UnitType.COUNT, 1), ("cloves", UnitType.COUNT, 1)]

/-- The unit normalizer as the specification describes it: look the normalized
spelling up in the fixed table and scale the value by the table multiplier;
anything unrecognized maps to `COUNT` with the value unchanged. -/
def specNormalizeUnit (unit : String) (value : ℚ) : UnitType × ℚ :=
  match specUnitTable.find? (fun e => e.1 == normalizeKey unit) with
  | some e => (e.2.1, e.2.2 * value)
  | none => (UnitType.COUNT, value)

/-! ### Specification-side selectors and decomposition helpers -/

/-- The mapping rows that compete for a canonical item: rows for that id that
still carry a store product (after the query filter, exactly the rows whose
product has the requested store and `active = true`). -/
def mappingCandidates (rows : List StoreMappingRow) (cid : String) : List StoreMappingRow :=
  rows.filter (fun r => decide (r.canonical_item_id = cid) && r.store_products.isSome)

/-- Selector following the wording of the claim: among the candidates, the first
encountered row whose priority is maximal. -/
def firstMaxSelect (rows : List StoreMappingRow) (cid : String) : Option StoreMappingRow :=
  (mappingCandidates rows cid).find?
    (fun r => (mappingCandidates rows cid).all (fun s => qle s.priority r.priority))

/-- Selector with the tie-break the code actually implements: among the
candidates, the last encountered row whose priority is maximal. -/
def lastMaxSelect (rows : List StoreMappingRow) (cid : String) : Option StoreMappingRow :=
  (mappingCandidates rows cid).reverse.find?
    (fun r => (mappingCandidates rows cid).all (fun s => qle s.priority r.priority))

/-- The unit price as the specification defines it:
`cachedUnitPrice ?? (packSize > 0 ? price / packSize : null)`. -/
def computedUnitPrice (priceRow : PriceCacheRow) (packSize : ℚ) : Option ℚ :=
  match priceRow.unit_price with
  | some up => some up
  | none => if 0 < packSize then some (priceRow.price / packSize) else none

/-- The missing-item entry (if any) that one request item produces during
aggregation, independent of the accumulator state. -/
def aggItemMiss (lookup : List (String × CanonicalItemRow)) (item : QuoteRequestItem) :
    Option MissingItem :=
  match jsGet lookup (normalizeKey item.ingredientName) with
  | none => some { ingredientName := item.ingredientName, reason := "no_canonical_match" }
  | some c =>
    if c.unit_type ≠ item.required.unit then
      some { ingredientName := item.ingredientName, reason := "unit_mismatch" }
    else none

def missOf (lookup : List (String × CanonicalItemRow)) (items : List QuoteRequestItem) :
    List MissingItem :=
  items.filterMap (aggItemMiss lookup)

/-- The aggregated-map component of one aggregation step (the first component
of `aggStep`, which never reads the missing-items accumulator). -/
def aggStepA (lookup : List (String × CanonicalItemRow))
    (a : List (String × CanonicalItemRow × ℚ)) (item : QuoteRequestItem) :
    List (String × CanonicalItemRow × ℚ) :=
  match jsGet lookup (normalizeKey item.ingredientName) with
  | none => a
  | some canonical =>
    if canonical.unit_type ≠ item.required.unit then a
    else
      match jsGet a canonical.id with
      | some existing => jsSet a canonical.id (existing.1, qadd existing.2 item.required.value)
      | none => jsSet a canonical.id (canonical, item.required.value)

def aggFoldA (lookup : List (String × CanonicalItemRow))
    (a : List (String × CanonicalItemRow × ℚ)) (items : List QuoteRequestItem) :
    List (String × CanonicalItemRow × ℚ) :=
  items.foldl (aggStepA lookup) a

/-- The quantity one request item contributes to the aggregated total of a
canonical id (`none` when it contributes nothing). -/
def aggContrib (lookup : List (String × CanonicalItemRow)) (cid : String)
    (item : QuoteRequestItem) : Option ℚ :=
  match jsGet lookup (normalizeKey item.ingredientName) with
  | none => none
  | some c =>
    if c.unit_type ≠ item.required.unit then none
    else if c.id = cid then some item.required.value else none

/-- Combine an optional running total with a list of additional summands;
`none` with no summands stays `none` (the map has no entry for the key). -/
def addOpt (o : Option ℚ) (L : List ℚ) : Option ℚ :=
  match o with
  | some x => some (x + L.sum)
  | none =>
    match L with
    | [] => none
    | _ => some L.sum

/-- The quantity one ingredient occurrence contributes to a grocery key
(`some 0` when the entry is touched but the quantity is not finite). -/
def gIngContrib (scale : ℚ) (key : String) (ing : AppIngredient) : Option ℚ :=
  match (match ing.canonicalName with | some s => some s | none => ing.name) with
  | none => none
  | some rn =>
    if rn = "" then none
    else if jsLower rn = key then
      some (match ing.quantity with | some q => qmul q scale | none => 0)
    else none

/-- The quantities one menu item contributes to a grocery key. -/
def gMenuContribs (getRecipe : String → Option AppRecipe) (key : String) (mi : AppMenuItem) :
    List ℚ :=
  match getRecipe mi.recipeId with
  | none => []
  | some recipe => recipe.ingredients.filterMap (gIngContrib (qdiv mi.servings recipe.servings) key)

/-! ### Concrete fixtures used by counterexamples and witnesses -/

def fxApple : CanonicalItemRow :=
  { id := "c-apple", name := "apple", unit_type := UnitType.GRAM, aliases := some ["apples"] }

def fxProduct (pid store : String) : StoreProductRow :=
  { id := pid, store := store, provider_product_id := "pp", title := "Apple 1kg",
    pack_size_value := 1000, pack_size_unit := UnitType.GRAM, product_url := none,
    image_url := none, active := true }

def fxMapRow (pid store : String) (prio : ℚ) : StoreMappingRow :=
  { canonical_item_id := "c-apple", priority := prio, store_products := some (fxProduct pid store) }

def fxPrice (pid : String) (unitP : Option ℚ) (ttl : ℚ) : PriceCacheRow :=
  { store_product_id := pid, postcode_area := some "GLOBAL", price := 2, unit_price := unitP,
    promo_text := none, in_stock := some true, currency := "GBP", fetched_at := 100,
    ttl_expires_at := ttl }

def fxItemApple : QuoteRequestItem :=
  { ingredientName := "apple", required := { value := 400, unit := UnitType.GRAM } }

def fxItemAlias : QuoteRequestItem :=
  { ingredientName := "apples", required := { value := 100, unit := UnitType.GRAM } }

def fxItemZzz : QuoteRequestItem :=
  { ingredientName := "zzz", required := { value := 1, unit := UnitType.COUNT } }

def c1Backend : Backend :=
  { canonicalResult := Except.ok [fxApple],
    mappingTable := [fxMapRow "sp-y" "y" 1],
    mappingError := fun s => if s = "x" then some "sim" else none,
    priceTable := [fxPrice "sp-y" none 2000],
    priceError := fun _ => none }

def c1Body : QuoteRequestBody := { stores := ["x", "y"], postcode := none, items := [fxItemApple] }

/-- Backend whose mapping queries all succeed but whose price-cache query for
store `x` fails; store `x` has a mapped, active product, so the cache query is
actually issued (the source skips it only when `storeProductIds` is empty). -/
def c1PriceBackend : Backend :=
  { canonicalResult := Except.ok [fxApple],
    mappingTable := [fxMapRow "sp-x" "x" 1, fxMapRow "sp-y" "y" 1],
    mappingError := fun _ => none,
    priceTable := [fxPrice "sp-y" none 2000],
    priceError := fun s => if s = "x" then some "sim" else none }

def c2RowA : StoreMappingRow := fxMapRow "sp-1" "tesco" 5

def c2RowB : StoreMappingRow := fxMapRow "sp-2" "tesco" 5

def tescoBackend (priceRows : List PriceCacheRow) : Backend :=
  { canonicalResult := Except.ok [fxApple],
    mappingTable := [fxMapRow "sp-t" "tesco" 1],
    mappingError := fun _ => none,
    priceTable := priceRows,
    priceError := fun _ => none }

def c3Backend : Backend := tescoBackend [fxPrice "sp-t" none 2000]

def c3Body : QuoteRequestBody :=
  { stores := ["tesco"], postcode := none,
    items := [fxItemApple, fxItemApple, fxItemApple, fxItemApple, fxItemZzz] }

def c4Backend : Backend := tescoBackend [fxPrice "sp-t" (some 0) 2000]

def c4Body : QuoteRequestBody := { stores := ["tesco"], postcode := none, items := [fxItemApple] }

/-- Mapping-by-canonical map of the tesco fixture (used by per-entry witnesses). -/
def fxMbc : List (String × StoreMappingRow) :=
  buildMappingByCanonical (mappingQuery [fxMapRow "sp-t" "tesco" 1] ["c-apple"] "tesco")

/-- Price cache with a stale row (TTL 500 and `now = 1000`). -/
def fxStalePc : List (String × PriceCacheRow) := [("sp-t", fxPrice "sp-t" none 500)]

def fxEntryApple : String × CanonicalItemRow × ℚ := ("c-apple", fxApple, 400)

def c5Backend : Backend := tescoBackend [fxPrice "sp-t" none 500]

def c7Backend : Backend := c1Backend

def c7BodyFull : QuoteRequestBody :=
  { stores := ["y"], postcode := none, items := [fxItemApple, fxItemZzz] }

/-! ### Bridge lemmas: the kernel-computable wrappers equal the Mathlib operations -/

theorem qadd_eq (a b : ℚ) : qadd a b = a + b := by
  rw [qadd, Rat.divInt_eq_div]
  conv_rhs => rw [← Rat.num_div_den a, ← Rat.num_div_den b]
  rw [div_add_div _ _ (by positivity : ((a.den : ℚ)) ≠ 0) (by positivity : ((b.den : ℚ)) ≠ 0)]
  push_cast
  ring_nf

theorem qmul_eq (a b : ℚ) : qmul a b = a * b := by
  rw [qmul, Rat.divInt_eq_div]
  conv_rhs => rw [← Rat.num_div_den a, ← Rat.num_div_den b]
  rw [div_mul_div_comm]
  push_cast
  ring_nf

theorem qdiv_eq (a b : ℚ) : qdiv a b = a / b := by
  rw [qdiv, Rat.divInt_eq_div]
  by_cases hb : b = 0
  · subst hb
    simp
  · have hbn : (b.num : ℚ) ≠ 0 := by
      exact_mod_cast Rat.num_ne_zero.mpr hb
    have had : ((a.den : ℚ)) ≠ 0 := by positivity
    have hbd : ((b.den : ℚ)) ≠ 0 := by positivity
    have ha : (a.num : ℚ) = a * a.den := (div_eq_iff had).mp (Rat.num_div_den a)
    have hb' : (b.num : ℚ) = b * b.den := (div_eq_iff hbd).mp (Rat.num_div_den b)
    push_cast
    rw [div_eq_div_iff (by exact mul_ne_zero had hbn) hb]
    rw [ha, hb']
    ring

theorem qlt_iff (a b : ℚ) : qlt a b = true ↔ a < b := by
  rw [qlt, decide_eq_true_eq, Rat.lt_def]

theorem qle_iff (a b : ℚ) : qle a b = true ↔ a ≤ b := by
  rw [qle, decide_eq_true_eq, Rat.le_def]

theorem ratFloor_eq (q : ℚ) : ratFloor q = ⌊q⌋ := by
  rw [ratFloor, Rat.floor_def]

theorem ratCeil_eq (q : ℚ) : ratCeil q = ⌈q⌉ := by
  rw [ratCeil, ← Rat.floor_def, Int.floor_neg, neg_neg]

/-! ### Association-list lemmas -/

theorem jsGet_jsSet_self {α β : Type} [DecidableEq α] (m : List (α × β)) (k : α) (v : β) :
    jsGet (jsSet m k v) k = some v := by
  induction m with
  | nil => simp [jsSet, jsGet]
  | cons p rest ih =>
    by_cases h : p.1 = k
    · simp [jsSet, jsGet, h]
    · simp [jsSet, jsGet, h, ih]

theorem jsGet_jsSet_ne {α β : Type} [DecidableEq α] (m : List (α × β)) (k k' : α) (v : β)
    (h : k' ≠ k) : jsGet (jsSet m k v) k' = jsGet m k' := by
  induction m with
  | nil => simp [jsSet, jsGet, Ne.symm h]
  | cons p rest ih =>
    by_cases hp : p.1 = k
    · simp [jsSet, jsGet, hp, Ne.symm h, hp.symm ▸ Ne.symm h]
    · simp [jsSet, jsGet, hp, ih]

/-! ### Generic list lemmas -/

theorem find?_mono {α : Type} (p p' : α → Bool) (l : List α) (a : α)
    (h : l.find? p = some a) (ha : p' a = true) (himp : ∀ x, p' x = true → p x = true) :
    l.find? p' = some a := by
  induction l with
  | nil => simp at h
  | cons x xs ih =>
    by_cases hx : p x = true
    · rw [List.find?_cons_of_pos _ hx] at h
      injection h with h
      subst h
      rw [List.find?_cons_of_pos _ ha]
    · rw [List.find?_cons_of_neg _ hx] at h
      have hx' : ¬ p' x = true := fun hc => hx (himp x hc)
      rw [List.find?_cons_of_neg _ hx']
      exact ih h

theorem exists_max_priority (l : List StoreMappingRow) (hl : l ≠ []) :
    ∃ s ∈ l, ∀ t ∈ l, t.priority ≤ s.priority := by
  induction l with
  | nil => exact absurd rfl hl
  | cons x xs ih =>
    by_cases hxs : xs = []
    · subst hxs
      exact ⟨x, List.mem_singleton_self x, by
        intro t ht
        rw [List.mem_singleton] at ht
        subst ht
        exact le_rfl⟩
    · obtain ⟨s, hs, hmax⟩ := ih hxs
      by_cases hc : s.priority ≤ x.priority
      · refine ⟨x, List.mem_cons_self x xs, ?_⟩
        intro t ht
        rcases List.mem_cons.mp ht with h | h
        · subst h; exact le_rfl
        · exact le_trans (hmax t h) hc
      · refine ⟨s, List.mem_cons_of_mem x hs, ?_⟩
        intro t ht
        rcases List.mem_cons.mp ht with h | h
        · subst h; exact le_of_not_le hc
        · exact hmax t h

/-! ### `addOpt` algebra -/

theorem addOpt_some (x : ℚ) (L : List ℚ) : addOpt (some x) L = some (x + L.sum) := rfl

theorem addOpt_none_cons (v : ℚ) (L : List ℚ) : addOpt none (v :: L) = some (v + L.sum) := by
  simp [addOpt]

theorem addOpt_some_shift (x v : ℚ) (L : List ℚ) :
    addOpt (some (x + v)) L = addOpt (some x) (v :: L) := by
  simp [addOpt, add_assoc]

theorem addOpt_none_start (v : ℚ) (L : List ℚ) : addOpt (some v) L = addOpt none (v :: L) := by
  simp [addOpt]

theorem addOpt_append (o : Option ℚ) (L1 L2 : List ℚ) :
    addOpt o (L1 ++ L2) = addOpt (addOpt o L1) L2 := by
  cases o with
  | some x => simp [addOpt, add_assoc]
  | none =>
    cases L1 with
    | nil => simp [addOpt]
    | cons v L1 => simp [addOpt, add_assoc]

theorem addOpt_perm (o : Option ℚ) (L L' : List ℚ) (h : L.Perm L') :
    addOpt o L = addOpt o L' := by
  have hsum : L.sum = L'.sum := h.sum_eq
  cases o with
  | some x => simp [addOpt, hsum]
  | none =>
    cases hL : L with
    | nil =>
      have : L' = [] := by
        subst hL
        exact h.symm.eq_nil
      simp [this]
    | cons v t =>
      have hne : L' ≠ [] := by
        intro hc
        rw [hc] at h
        have := h.eq_nil
        simp [hL] at this
      cases hL' : L' with
      | nil => exact absurd hL' hne
      | cons v' t' =>
        rw [hL] at hsum
        rw [hL'] at hsum
        simp [addOpt, hsum]

/-! ### `Except`/`mapM` plumbing -/

theorem except_bind_ok {α β : Type} (a : α) (k : α → Except String β) :
    (Except.ok a >>= k) = k a := rfl

theorem except_bind_error {α β : Type} (e : String) (k : α → Except String β) :
    ((Except.error e : Except String α) >>= k) = Except.error e := rfl

theorem except_pure_eq {α : Type} (a : α) : (pure a : Except String α) = Except.ok a := rfl

theorem mapM_ok_mem {α β : Type} (f : α → Except String β) (l : List α) (res : List β)
    (h : l.mapM f = Except.ok res) : ∀ b ∈ res, ∃ a ∈ l, f a = Except.ok b := by
  induction l generalizing res with
  | nil =>
    simp only [List.mapM_nil, except_pure_eq] at h
    injection h with h
    subst h
    intro b hb
    simp at hb
  | cons a l ih =>
    rw [List.mapM_cons] at h
    cases hfa : f a with
    | error e => rw [hfa, except_bind_error] at h; exact absurd h (by simp)
    | ok bf =>
      rw [hfa, except_bind_ok] at h
      cases hml : l.mapM f with
      | error e => rw [hml, except_bind_error] at h; exact absurd h (by simp)
      | ok bs =>
        rw [hml, except_bind_ok, except_pure_eq] at h
        injection h with h
        subst h
        intro b hb
        rcases List.mem_cons.mp hb with hb | hb
        · exact ⟨a, List.mem_cons_self a l, hb ▸ hfa⟩
        · obtain ⟨a', ha', hfa'⟩ := ih bs hml b hb
          exact ⟨a', List.mem_cons_of_mem a ha', hfa'⟩

theorem mapM_error_of_mem {α β : Type} (f : α → Except String β) (l : List α) (a : α)
    (ha : a ∈ l) (e : String) (hfa : f a = Except.error e) :
    ∃ msg, l.mapM f = Except.error msg := by
  induction l with
  | nil => simp at ha
  | cons x xs ih =>
    rw [List.mapM_cons]
    cases hfx : f x with
    | error e' => exact ⟨e', by rw [except_bind_error]⟩
    | ok bx =>
      rcases List.mem_cons.mp ha with hax | hax
      · rw [hax] at hfa
        rw [hfa] at hfx
        exact absurd hfx (by simp)
      · obtain ⟨msg, hmsg⟩ := ih hax
        exact ⟨msg, by rw [except_bind_ok, hmsg, except_bind_error]⟩

theorem mapM_ok_rel {α β : Type} (f g : α → Except String β) (R : β → β → Prop)
    (l : List α) (res : List β) (h : l.mapM f = Except.ok res)
    (hrel : ∀ a ∈ l, ∀ bf, f a = Except.ok bf → ∃ bg, g a = Except.ok bg ∧ R bf bg) :
    ∃ res', l.mapM g = Except.ok res' ∧ List.Forall₂ R res res' := by
  induction l generalizing res with
  | nil =>
    simp only [List.mapM_nil, except_pure_eq] at h
    injection h with h
    subst h
    exact ⟨[], rfl, List.Forall₂.nil⟩
  | cons a l ih =>
    rw [List.mapM_cons] at h
    cases hfa : f a with
    | error e => rw [hfa, except_bind_error] at h; exact absurd h (by simp)
    | ok bf =>
      rw [hfa, except_bind_ok] at h
      cases hml : l.mapM f with
      | error e => rw [hml, except_bind_error] at h; exact absurd h (by simp)
      | ok bs =>
        rw [hml, except_bind_ok, except_pure_eq] at h
        injection h with h
        subst h
        obtain ⟨bg, hbg, hR⟩ := hrel a (List.mem_cons_self a l) bf hfa
        obtain ⟨res', hres', hfa2⟩ :=
          ih bs hml (fun x hx => hrel x (List.mem_cons_of_mem a hx))
        exact ⟨bg :: res', by
          rw [List.mapM_cons, hbg, except_bind_ok, hres', except_bind_ok, except_pure_eq],
          List.Forall₂.cons hR hfa2⟩

/-! ### Properties of the per-store quote fold -/

theorem quoteFold_missing (mbc : List (String × StoreMappingRow))
    (pc : List (String × PriceCacheRow)) (now : ℚ) :
    ∀ (agg : List (String × CanonicalItemRow × ℚ)) (acc : QuoteAcc),
      (agg.foldl (quoteFoldStep mbc pc now) acc).missing
        = acc.missing ++ (agg.foldl (quoteFoldStep mbc pc now) (QuoteAcc.start [])).missing := by
  intro agg
  induction agg with
  | nil => intro acc; simp [QuoteAcc.start]
  | cons e rest ih =>
    intro acc
    rw [List.foldl_cons, List.foldl_cons, ih (quoteFoldStep mbc pc now acc e),
        ih (quoteFoldStep mbc pc now (QuoteAcc.start []) e)]
    cases hpe : processEntry mbc pc now e with
    | miss m => simp [quoteFoldStep, hpe, QuoteAcc.start]
    | line li => simp [quoteFoldStep, hpe, QuoteAcc.start]

theorem quoteFold_basket (mbc : List (String × StoreMappingRow))
    (pc : List (String × PriceCacheRow)) (now : ℚ) :
    ∀ (agg : List (String × CanonicalItemRow × ℚ)) (acc : QuoteAcc),
      (agg.foldl (quoteFoldStep mbc pc now) acc).basketTotal
        = acc.basketTotal + (agg.foldl (quoteFoldStep mbc pc now) (QuoteAcc.start [])).basketTotal := by
  intro agg
  induction agg with
  | nil => intro acc; simp [QuoteAcc.start]
  | cons e rest ih =>
    intro acc
    rw [List.foldl_cons, List.foldl_cons, ih (quoteFoldStep mbc pc now acc e),
        ih (quoteFoldStep mbc pc now (QuoteAcc.start []) e)]
    cases hpe : processEntry mbc pc now e with
    | miss m => simp [quoteFoldStep, hpe, QuoteAcc.start]
    | line li => simp [quoteFoldStep, hpe, QuoteAcc.start, qadd_eq]; ring

theorem lineItem_src (mbc : List (String × StoreMappingRow))
    (pc : List (String × PriceCacheRow)) (now : ℚ) :
    ∀ (agg : List (String × CanonicalItemRow × ℚ)) (acc : QuoteAcc) (li : LineItem),
      li ∈ (agg.foldl (quoteFoldStep mbc pc now) acc).lineItems →
      li ∈ acc.lineItems ∨ ∃ entry ∈ agg, processEntry mbc pc now entry = ItemOutcome.line li := by
  intro agg
  induction agg with
  | nil =>
    intro acc li h
    exact Or.inl h
  | cons e rest ih =>
    intro acc li h
    rw [List.foldl_cons] at h
    rcases ih (quoteFoldStep mbc pc now acc e) li h with hin | ⟨entry, hent, hpe⟩
    · cases hpe : processEntry mbc pc now e with
      | miss m =>
        rw [quoteFoldStep, hpe] at hin
        exact Or.inl hin
      | line li' =>
        rw [quoteFoldStep, hpe] at hin
        rcases List.mem_append.mp hin with hin | hin
        · exact Or.inl hin
        · rw [List.mem_singleton] at hin
          exact Or.inr ⟨e, List.mem_cons_self e rest, by rw [hpe, hin]⟩
    · exact Or.inr ⟨entry, List.mem_cons_of_mem e hent, hpe⟩

theorem staleCount_countP (mbc : List (String × StoreMappingRow))
    (pc : List (String × PriceCacheRow)) (now : ℚ) :
    ∀ (agg : List (String × CanonicalItemRow × ℚ)) (acc : QuoteAcc),
      acc.staleCount = acc.lineItems.countP (fun li => li.priceSource == "stale") →
      (agg.foldl (quoteFoldStep mbc pc now) acc).staleCount
        = ((agg.foldl (quoteFoldStep mbc pc now) acc).lineItems).countP
            (fun li => li.priceSource == "stale") := by
  intro agg
  induction agg with
  | nil => intro acc h; exact h
  | cons e rest ih =>
    intro acc h
    rw [List.foldl_cons]
    apply ih
    cases hpe : processEntry mbc pc now e with
    | miss m => simpa [quoteFoldStep, hpe] using h
    | line li =>
      simp only [quoteFoldStep, hpe]
      rw [List.countP_append, ← h]
      simp [List.countP_cons]

/-! ### Decomposition of the request-item aggregation -/

theorem aggFold_decompose (lookup : List (String × CanonicalItemRow)) :
    ∀ (items : List QuoteRequestItem) (a : List (String × CanonicalItemRow × ℚ))
      (m : List MissingItem),
      items.foldl (aggStep lookup) (a, m) = (aggFoldA lookup a items, m ++ missOf lookup items) := by
  intro items
  induction items with
  | nil => intro a m; simp [aggFoldA, missOf]
  | cons it rest ih =>
    intro a m
    rw [List.foldl_cons]
    cases hlk : jsGet lookup (normalizeKey it.ingredientName) with
    | none =>
      rw [show aggStep lookup (a, m) it
            = (a, m ++ [{ ingredientName := it.ingredientName, reason := "no_canonical_match" }]) by
          simp [aggStep, hlk]]
      rw [ih]
      simp [aggFoldA, aggStepA, hlk, missOf, List.filterMap_cons, aggItemMiss]
    | some c =>
      by_cases hu : c.unit_type ≠ it.required.unit
      · rw [show aggStep lookup (a, m) it
              = (a, m ++ [{ ingredientName := it.ingredientName, reason := "unit_mismatch" }]) by
            simp [aggStep, hlk, hu]]
        rw [ih]
        simp [aggFoldA, aggStepA, hlk, hu, missOf, List.filterMap_cons, aggItemMiss]
      · rw [show aggStep lookup (a, m) it = (aggStepA lookup a it, m) by
            simp only [aggStep, hlk, aggStepA]
            rw [if_neg hu, if_neg hu]
            cases jsGet a c.id <;> rfl]
        rw [ih]
        have hmiss : aggItemMiss lookup it = none := by
          simp [aggItemMiss, hlk, hu]
        simp [aggFoldA, missOf, List.filterMap_cons, hmiss]

theorem aggregateItems_eq (lookup : List (String × CanonicalItemRow))
    (items : List QuoteRequestItem) :
    aggregateItems lookup items = (aggFoldA lookup [] items, missOf lookup items) := by
  rw [aggregateItems, aggFold_decompose]
  simp

theorem aggValue_invariant (lookup : List (String × CanonicalItemRow)) (cid : String) :
    ∀ (items : List QuoteRequestItem) (a : List (String × CanonicalItemRow × ℚ)),
      (jsGet (aggFoldA lookup a items) cid).map (fun p => p.2)
        = addOpt ((jsGet a cid).map (fun p => p.2)) (items.filterMap (aggContrib lookup cid)) := by
  intro items
  induction items with
  | nil =>
    intro a
    simp [aggFoldA, addOpt]
    cases jsGet a cid <;> simp
  | cons it rest ih =>
    intro a
    have hfold : aggFoldA lookup a (it :: rest) = aggFoldA lookup (aggStepA lookup a it) rest := by
      simp [aggFoldA]
    rw [hfold, ih]
    cases hlk : jsGet lookup (normalizeKey it.ingredientName) with
    | none =>
      simp [aggStepA, hlk, List.filterMap_cons, aggContrib]
    | some c =>
      by_cases hu : c.unit_type ≠ it.required.unit
      · simp [aggStepA, hlk, hu, List.filterMap_cons, aggContrib]
      · by_cases hc : c.id = cid
        · subst hc
          have hcontrib : aggContrib lookup c.id it = some it.required.value := by
            simp [aggContrib, hlk, hu]
          rw [List.filterMap_cons]
          rw [hcontrib]
          cases hga : jsGet a c.id with
          | none =>
            rw [show aggStepA lookup a it = jsSet a c.id (c, it.required.value) by
              simp [aggStepA, hlk, hu, hga]]
            rw [jsGet_jsSet_self]
            simp [hga]
            rw [addOpt_none_start]
          | some ex =>
            rw [show aggStepA lookup a it
                  = jsSet a c.id (ex.1, qadd ex.2 it.required.value) by
              simp [aggStepA, hlk, hu, hga]]
            rw [jsGet_jsSet_self]
            simp [hga, qadd_eq]
            rw [addOpt_some_shift]
        · have hcontrib : aggContrib lookup cid it = none := by
            simp [aggContrib, hlk, hu, hc]
          rw [List.filterMap_cons, hcontrib]
          have hget : jsGet (aggStepA lookup a it) cid = jsGet a cid := by
            simp only [aggStepA, hlk]
            rw [if_neg hu]
            cases hga : jsGet a c.id with
            | none => exact jsGet_jsSet_ne a c.id cid _ (fun hh => hc hh.symm)
            | some ex => exact jsGet_jsSet_ne a c.id cid _ (fun hh => hc hh.symm)
          rw [hget]


theorem quantity_ite (c : Prop) [Decidable c] (g1 g2 : GroceryItem) :
    (if c then g1 else g2).quantity = if c then g1.quantity else g2.quantity :=
  apply_ite (fun g => g.quantity) c g1 g2

theorem shared_update_quantity (g2 : GroceryItem) :
    (if 1 < g2.sources.length then { g2 with isShared := true } else g2).quantity
      = g2.quantity := by
  rw [quantity_ite]
  simp

theorem contains_update_quantity (g1 : GroceryItem) (rname : String) :
    (if g1.sources.contains rname then g1
     else { g1 with sources := g1.sources ++ [rname] }).quantity = g1.quantity := by
  rw [quantity_ite]
  simp

theorem gIng_invariant (scale : ℚ) (rname key : String) :
    ∀ (ings : List AppIngredient) (m : List (String × GroceryItem)),
      (jsGet (ings.foldl (ingStep scale rname) m) key).map (fun g => g.quantity)
        = addOpt ((jsGet m key).map (fun g => g.quantity))
            (ings.filterMap (gIngContrib scale key)) := by
  intro ings
  induction ings with
  | nil =>
    intro m
    simp only [List.foldl_nil, List.filterMap_nil, addOpt]
    cases jsGet m key <;> simp
  | cons ing rest ih =>
    intro m
    rw [List.foldl_cons, ih]
    cases hrn : (match ing.canonicalName with | some s => some s | none => ing.name) with
    | none =>
      rw [show ingStep scale rname m ing = m by simp [ingStep, hrn]]
      simp [List.filterMap_cons, gIngContrib, hrn]
    | some rn =>
      by_cases hempty : rn = ""
      · rw [show ingStep scale rname m ing = m by simp [ingStep, hrn, hempty]]
        simp [List.filterMap_cons, gIngContrib, hrn, hempty]
      · by_cases hkey : jsLower rn = key
        · have hcontrib : gIngContrib scale key ing
              = some (match ing.quantity with | some q => qmul q scale | none => 0) := by
            simp [gIngContrib, hrn, hempty, hkey]
          rw [List.filterMap_cons, hcontrib]
          cases hgm : jsGet m key with
          | some g =>
            have hstep : (jsGet (ingStep scale rname m ing) key).map (fun g => g.quantity)
                = some (match ing.quantity with
                        | some q => qadd g.quantity (qmul q scale)
                        | none => g.quantity) := by
              simp only [ingStep, hrn]
              rw [if_neg hempty, hkey, hgm, jsGet_jsSet_self]
              simp only [Option.map_some', quantity_ite, ite_self]
            rw [hstep]
            cases hq : ing.quantity with
            | some q =>
              simp only [qadd_eq]
              rw [addOpt_some_shift]
              simp
            | none =>
              rw [show g.quantity = g.quantity + 0 by ring]
              rw [addOpt_some_shift]
              simp
          | none =>
            have hstep : (jsGet (ingStep scale rname m ing) key).map (fun g => g.quantity)
                = some (match ing.quantity with
                        | some q => qadd 0 (qmul q scale)
                        | none => (0 : ℚ)) := by
              simp only [ingStep, hrn]
              rw [if_neg hempty, hkey, hgm, jsGet_jsSet_self]
              simp only [Option.map_some', quantity_ite, ite_self]
            rw [hstep]
            cases hq : ing.quantity with
            | some q =>
              simp only [qadd_eq, zero_add]
              rw [addOpt_none_start]
              simp
            | none =>
              rw [addOpt_none_start]
              simp
        · have hcontrib : gIngContrib scale key ing = none := by
            simp [gIngContrib, hrn, hempty, hkey]
          rw [List.filterMap_cons, hcontrib]
          have hget : jsGet (ingStep scale rname m ing) key = jsGet m key := by
            simp only [ingStep, hrn]
            rw [if_neg hempty]
            exact jsGet_jsSet_ne m (jsLower rn) key _ (fun hh => hkey hh.symm)
          rw [hget]

theorem gMenu_invariant (getRecipe : String → Option AppRecipe) (key : String) :
    ∀ (menu : List AppMenuItem) (m : List (String × GroceryItem)),
      (jsGet (menu.foldl (menuStep getRecipe) m) key).map (fun g => g.quantity)
        = addOpt ((jsGet m key).map (fun g => g.quantity))
            ((menu.map (gMenuContribs getRecipe key)).flatten) := by
  intro menu
  induction menu with
  | nil =>
    intro m
    simp only [List.foldl_nil, List.map_nil, List.flatten_nil, addOpt]
    cases jsGet m key <;> simp
  | cons mi rest ih =>
    intro m
    rw [List.foldl_cons, ih]
    rw [List.map_cons, List.flatten_cons, addOpt_append]
    congr 1
    cases hr : getRecipe mi.recipeId with
    | none =>
      rw [show menuStep getRecipe m mi = m by simp [menuStep, hr]]
      simp [gMenuContribs, hr, addOpt]
      cases jsGet m key <;> simp
    | some recipe =>
      rw [show menuStep getRecipe m mi
            = recipe.ingredients.foldl (ingStep (qdiv mi.servings recipe.servings) recipe.name) m by
          simp [menuStep, hr]]
      rw [gIng_invariant]
      simp [gMenuContribs, hr]

/-! ### The mapping selection equals "last encountered among maximal priority" -/

theorem lastMax_isSome (rows : List StoreMappingRow) (cid : String)
    (hne : mappingCandidates rows cid ≠ []) : (lastMaxSelect rows cid).isSome = true := by
  obtain ⟨smax, hmem, hmax⟩ := exists_max_priority _ hne
  rw [lastMaxSelect, List.find?_isSome]
  refine ⟨smax, List.mem_reverse.mpr hmem, ?_⟩
  rw [List.all_eq_true]
  intro t ht
  rw [qle_iff]
  exact hmax t ht

theorem build_eq_lastMax : ∀ (rows : List StoreMappingRow) (cid : String),
    jsGet (buildMappingByCanonical rows) cid = lastMaxSelect rows cid := by
  intro rows
  induction rows using List.reverseRecOn with
  | nil => intro cid; rfl
  | append_singleton rows r ih =>
    intro cid
    rw [buildMappingByCanonical, List.foldl_append, List.foldl_cons, List.foldl_nil,
        ← buildMappingByCanonical]
    cases hsp : r.store_products with
    | none =>
      have hstep : mappingStep (buildMappingByCanonical rows) r = buildMappingByCanonical rows := by
        simp [mappingStep, hsp]
      have hcand : mappingCandidates (rows ++ [r]) cid = mappingCandidates rows cid := by
        simp [mappingCandidates, List.filter_append, hsp]
      rw [hstep, ih cid, lastMaxSelect, lastMaxSelect, hcand]
    | some p =>
      by_cases hcid : r.canonical_item_id = cid
      · have hcand : mappingCandidates (rows ++ [r]) cid = mappingCandidates rows cid ++ [r] := by
          simp [mappingCandidates, List.filter_append, hsp, hcid]
        cases hsel : jsGet (buildMappingByCanonical rows) cid with
        | none =>
          have hc0 : mappingCandidates rows cid = [] := by
            by_contra hne
            have hsome := lastMax_isSome rows cid hne
            rw [← ih cid, hsel] at hsome
            simp at hsome
          have hstep : mappingStep (buildMappingByCanonical rows) r
              = jsSet (buildMappingByCanonical rows) cid r := by
            simp only [mappingStep, hsp, hcid, hsel]
          rw [hstep, jsGet_jsSet_self, lastMaxSelect, hcand, hc0]
          simp only [List.nil_append, List.reverse_singleton]
          rw [List.find?_cons_of_pos]
          rw [List.all_eq_true]
          intro t ht
          rw [List.mem_singleton] at ht
          subst ht
          rw [qle_iff]
        | some s =>
          have hlast : lastMaxSelect rows cid = some s := by rw [← ih cid, hsel]
          have hfind := hlast
          rw [lastMaxSelect] at hfind
          have hsmem : s ∈ mappingCandidates rows cid :=
            List.mem_reverse.mp (List.mem_of_find?_eq_some hfind)
          have hsmax : ∀ t ∈ mappingCandidates rows cid, t.priority ≤ s.priority := by
            have hp := List.find?_some hfind
            rw [List.all_eq_true] at hp
            intro t ht
            rw [← qle_iff]
            exact hp t ht
          by_cases hle : s.priority ≤ r.priority
          · have hstep : mappingStep (buildMappingByCanonical rows) r
                = jsSet (buildMappingByCanonical rows) cid r := by
              simp only [mappingStep, hsp, hcid, hsel]
              rw [if_pos ((qle_iff _ _).mpr hle)]
            rw [hstep, jsGet_jsSet_self, lastMaxSelect, hcand, List.reverse_append,
                List.reverse_singleton, List.singleton_append]
            rw [List.find?_cons_of_pos]
            rw [List.all_eq_true]
            intro t ht
            rw [qle_iff]
            rcases List.mem_append.mp ht with ht | ht
            · exact le_trans (hsmax t ht) hle
            · rw [List.mem_singleton] at ht
              subst ht
              exact le_rfl
          · have hstep : mappingStep (buildMappingByCanonical rows) r
                = buildMappingByCanonical rows := by
              simp only [mappingStep, hsp, hcid, hsel]
              rw [if_neg (fun hc => hle ((qle_iff _ _).mp hc))]
            rw [hstep, hsel, lastMaxSelect, hcand, List.reverse_append,
                List.reverse_singleton, List.singleton_append]
            rw [List.find?_cons_of_neg]
            · refine (find?_mono _ _ _ s hfind ?_ ?_).symm
              · rw [List.all_eq_true]
                intro t ht
                rw [qle_iff]
                rcases List.mem_append.mp ht with ht | ht
                · exact hsmax t ht
                · rw [List.mem_singleton] at ht
                  subst ht
                  exact le_of_lt (lt_of_not_le hle)
              · intro x hx
                rw [List.all_eq_true] at hx
                rw [List.all_eq_true]
                intro t ht
                exact hx t (List.mem_append_left _ ht)
            · intro hc
              rw [List.all_eq_true] at hc
              have := hc s (List.mem_append_left _ hsmem)
              rw [qle_iff] at this
              exact hle this
      · have hget : jsGet (mappingStep (buildMappingByCanonical rows) r) cid
            = jsGet (buildMappingByCanonical rows) cid := by
          simp only [mappingStep, hsp]
          cases hex : jsGet (buildMappingByCanonical rows) r.canonical_item_id with
          | none => exact jsGet_jsSet_ne _ _ _ _ (fun hh => hcid hh.symm)
          | some ex =>
            by_cases hq : qle ex.priority r.priority = true
            · simp only [hq, if_true]
              exact jsGet_jsSet_ne _ _ _ _ (fun hh => hcid hh.symm)
            · simp [hq]
        have hcand : mappingCandidates (rows ++ [r]) cid = mappingCandidates rows cid := by
          simp [mappingCandidates, List.filter_append, hcid]
        rw [hget, ih cid, lastMaxSelect, lastMaxSelect, hcand]

/-! ### Shape of a successful per-store quote -/

theorem quoteStore_ok (b : Backend) (cp : String) (now : ℚ)
    (agg : List (String × CanonicalItemRow × ℚ)) (base : List MissingItem)
    (ids : List String) (store : String) (q : StoreQuote)
    (h : quoteStore b cp now agg base ids store = Except.ok q) :
    ∃ mbc pc res,
      mbc = buildMappingByCanonical (mappingQuery b.mappingTable ids store)
      ∧ res = agg.foldl (quoteFoldStep mbc pc now) (QuoteAcc.start base)
      ∧ q.missingItems = res.missing
      ∧ q.missingCount = res.missing.length
      ∧ q.lineItems = res.lineItems
      ∧ q.basketTotal = round2 res.basketTotal
      ∧ q.warnings =
          (if qlt (mkRat 1 5)
              (if agg.length + base.length = 0 then 0
               else qdiv (res.missing.length : ℚ) ((agg.length + base.length : ℕ) : ℚ)) then
            [basketIncompleteMsg]
          else []) ++ (if 0 < res.staleCount then [stalePricesMsg] else []) := by
  simp only [quoteStore] at h
  split at h
  · exact absurd h (by simp)
  · split at h
    · exact absurd h (by simp)
    · injection h with h
      subst h
      refine ⟨_, _, _, rfl, rfl, rfl, rfl, rfl, rfl, rfl⟩

/-! ### Shape of a successful request -/

theorem handleQuote_ok (b : Backend) (now : ℚ) (body : QuoteRequestBody) (resp : QuoteResponse)
    (h : handleQuote b now body = Except.ok resp) :
    ∃ canonicalRows quotes,
      b.canonicalResult = Except.ok canonicalRows
      ∧ body.stores.mapM
          (fun store => quoteStore b ((extractPostcodeArea body.postcode).getD "GLOBAL") now
            (aggregateItems (buildCanonicalLookup canonicalRows) body.items).1
            (aggregateItems (buildCanonicalLookup canonicalRows) body.items).2
            ((aggregateItems (buildCanonicalLookup canonicalRows) body.items).1.map Prod.fst)
            store)
          = Except.ok quotes
      ∧ resp.quotes = quotes := by
  simp only [handleQuote] at h
  split at h
  · exact absurd h (by simp)
  · split at h
    · exact absurd h (by simp)
    · next canonicalRows hc =>
      split at h
      · exact absurd h (by simp)
      · next quotes hm =>
        injection h with h
        subst h
        exact ⟨canonicalRows, quotes, hc, hm, rfl⟩

/-- C10: in every `StoreQuote` returned by the quote operation, `missingCount`
equals the length of the `missingItems` array of that quote. -/
theorem c10_missing_count_length (b : Backend) (now : ℚ) (body : QuoteRequestBody)
    (resp : QuoteResponse) (h : handleQuote b now body = Except.ok resp) :
    ∀ q ∈ resp.quotes, q.missingCount = q.missingItems.length := by
  intro q hq
  obtain ⟨canonicalRows, quotes, hc, hm, hr⟩ := handleQuote_ok b now body resp h
  rw [hr] at hq
  obtain ⟨store, hstore, hqs⟩ := mapM_ok_mem _ _ _ hm q hq
  obtain ⟨mbc, pc, res, _, _, hmiss, hcount, _, _, _⟩ :=
    quoteStore_ok _ _ _ _ _ _ _ _ hqs
  rw [hcount, hmiss]

/-- C10 witness: the fixture request returns one quote whose `missingCount`
matches its `missingItems` length. -/
theorem c10_witness :
    ∃ resp, handleQuote c3Backend 1000 c3Body = Except.ok resp
      ∧ ∀ q ∈ resp.quotes, q.missingCount = q.missingItems.length := by
  cases hres : handleQuote c3Backend 1000 c3Body with
  | error e =>
    have hsome : (handleQuote c3Backend 1000 c3Body).toOption.isSome = true := by decide
    rw [hres] at hsome
    simp [Except.toOption] at hsome
  | ok resp =>
    exact ⟨resp, rfl, c10_missing_count_length c3Backend 1000 c3Body resp hres⟩

/-- C6: `packsNeeded` is the ceiling of `requiredQuantity / packSize` when
`packSize > 0` — so 350 at pack size 200 gives 2 packs and exactly 400 at
pack size 200 gives 2 packs, with no over-purchase at the boundary — and it
is `0` when `packSize <= 0`. -/
theorem c6_ceil_packs (r p : ℚ) :
    (p ≤ 0 → ceilPacks r p = 0)
      ∧ (0 < p → ceilPacks r p = ((⌈r / p⌉ : ℤ) : ℚ))
      ∧ ceilPacks 350 200 = 2 ∧ ceilPacks 400 200 = 2 := by
  refine ⟨?_, ?_, by decide, by decide⟩
  · intro h
    rw [ceilPacks, if_pos ((qle_iff _ _).mpr h)]
  · intro h
    rw [ceilPacks, if_neg (fun hc => absurd ((qle_iff _ _).mp hc) (not_le.mpr h)),
        ratCeil_eq, qdiv_eq]

/-- C6 witness: the positive-pack-size branch applied at 350 and 200. -/
theorem c6_witness : ceilPacks 350 200 = ((⌈(350 : ℚ) / 200⌉ : ℤ) : ℚ) :=
  (c6_ceil_packs 350 200).2.1 (by norm_num)

/-- C1 counterexample: a request naming the two stores `"x"` and `"y"`, where
only the mapping query of store `"x"` fails, returns a single thrown error and no
quotes at all — store `"y"` receives no `StoreQuote`, even though the same
backend quotes `"y"` fine when asked alone. -/
theorem c1_counterexample :
    c1Body.stores.length = 2
      ∧ handleQuote c1Backend 1000 c1Body = Except.error "Failed to load store mappings: sim"
      ∧ (handleQuote c1Backend 1000 { c1Body with stores := ["y"] }).toOption.map
          (fun r => r.quotes.map (fun q => (q.store, q.missingCount, q.lineItems.length)))
          = some [("y", 0, 1)] := by
  refine ⟨rfl, by rfl, by decide⟩

/-- C1 amended: a backing-store failure while quoting any requested store — a
mapping-query error, or a price-cache query error on a store whose mapped
store-product id list is non-empty (when that list is empty the source skips
the cache query entirely, so a cache error cannot surface) — aborts the whole
request: `handleQuote` returns a thrown error and no store, including the
unaffected ones, receives a quote. -/
theorem c1_failure_aborts_request (b : Backend) (now : ℚ) (body : QuoteRequestBody)
    (store : String) (e : String) (hin : store ∈ body.stores)
    (he : b.mappingError store = some e
        ∨ (b.mappingError store = none ∧ b.priceError store = some e ∧
           ∃ canonicalRows, b.canonicalResult = Except.ok canonicalRows ∧
             (storeIdsOf (buildMappingByCanonical (mappingQuery b.mappingTable
               ((aggregateItems (buildCanonicalLookup canonicalRows) body.items).1.map Prod.fst)
               store))).isEmpty = false)) :
    ∃ msg, handleQuote b now body = Except.error msg := by
  simp only [handleQuote]
  split
  · exact ⟨_, rfl⟩
  · split
    · exact ⟨_, rfl⟩
    · next canonicalRows hc =>
      have hf : ∃ m0, quoteStore b ((extractPostcodeArea body.postcode).getD "GLOBAL") now
          (aggregateItems (buildCanonicalLookup canonicalRows) body.items).1
          (aggregateItems (buildCanonicalLookup canonicalRows) body.items).2
          ((aggregateItems (buildCanonicalLookup canonicalRows) body.items).1.map Prod.fst)
          store = Except.error m0 := by
        rcases he with he | ⟨hme, hpe, rows, hrows, hids⟩
        · exact ⟨"Failed to load store mappings: " ++ e, by simp only [quoteStore, he]⟩
        · rw [hc] at hrows
          injection hrows with hrows'
          subst hrows'
          refine ⟨"Failed to load price cache: " ++ e, ?_⟩
          have hfp : fetchPriceRows b store
              (storeIdsOf (buildMappingByCanonical (mappingQuery b.mappingTable
                ((aggregateItems (buildCanonicalLookup canonicalRows) body.items).1.map Prod.fst)
                store))) ((extractPostcodeArea body.postcode).getD "GLOBAL")
              = Except.error ("Failed to load price cache: " ++ e) := by
            simp [fetchPriceRows, hids, hpe]
          simp only [quoteStore, hme, hfp]
      obtain ⟨m0, hf⟩ := hf
      obtain ⟨msg, hmsg⟩ :=
        mapM_error_of_mem
          (fun s => quoteStore b ((extractPostcodeArea body.postcode).getD "GLOBAL") now
            (aggregateItems (buildCanonicalLookup canonicalRows) body.items).1
            (aggregateItems (buildCanonicalLookup canonicalRows) body.items).2
            ((aggregateItems (buildCanonicalLookup canonicalRows) body.items).1.map Prod.fst) s)
          body.stores store hin _ hf
      refine ⟨msg, ?_⟩
      split
      · next e' hm =>
        rw [hm] at hmsg
        injection hmsg with hh
        rw [hh]
      · next quotes hm =>
        rw [hm] at hmsg
        exact absurd hmsg (by simp)

/-- C1 witness for the amended claim, at concrete two-store fixtures: a
mapping-query failure on store x aborts the request, and so does a
price-cache query failure on store x, whose mapped product list is
non-empty. -/
theorem c1_witness :
    (∃ msg, handleQuote c1Backend 1000 c1Body = Except.error msg)
      ∧ (∃ msg, handleQuote c1PriceBackend 1000 c1Body = Except.error msg) :=
  ⟨c1_failure_aborts_request c1Backend 1000 c1Body "x" "sim" (by decide) (Or.inl (by decide)),
   c1_failure_aborts_request c1PriceBackend 1000 c1Body "x" "sim" (by decide)
     (Or.inr ⟨by decide, by decide, [fxApple], rfl, by decide⟩)⟩

/-- C2 counterexample: two active tesco rows with equal priority map the same
canonical item to different store products; the `mappingByCanonical` map of the code
selects the row encountered second (`>=` keeps the later row), while the
first-encountered-among-maximal rule of the claim selects the first, so the claim
as stated is false. -/
theorem c2_counterexample :
    jsGet (buildMappingByCanonical (mappingQuery [c2RowA, c2RowB] ["c-apple"] "tesco")) "c-apple"
        = some c2RowB
      ∧ firstMaxSelect (mappingQuery [c2RowA, c2RowB] ["c-apple"] "tesco") "c-apple" = some c2RowA
      ∧ c2RowA ≠ c2RowB := by
  exact ⟨by decide, by decide, by decide⟩

/-- C2 amended: among the mapping rows whose store product has `store` equal
to the target store and `active = true`, a row with the maximal priority is
selected; when several rows share that maximal priority, the one encountered
LAST in the stable iteration order of the mapping rows is selected (the
source keeps a later row whenever `row.priority >= existing.priority`). -/
theorem c2_last_max_selected (table : List StoreMappingRow) (ids : List String)
    (store cid : String) :
    jsGet (buildMappingByCanonical (mappingQuery table ids store)) cid
        = lastMaxSelect (mappingQuery table ids store) cid
      ∧ ∀ r ∈ mappingCandidates (mappingQuery table ids store) cid,
          ∃ p, r.store_products = some p ∧ p.store = store ∧ p.active = true := by
  refine ⟨build_eq_lastMax _ cid, ?_⟩
  intro r hr
  rw [mappingCandidates, List.mem_filter] at hr
  obtain ⟨hmem, hpred⟩ := hr
  rw [Bool.and_eq_true] at hpred
  have hsome := hpred.2
  rw [mappingQuery, List.mem_map] at hmem
  obtain ⟨r0, hr0mem, hmap⟩ := hmem
  rw [← hmap] at hsome
  rw [← hmap]
  cases hsp0 : r0.store_products with
  | none => simp [hsp0] at hsome
  | some p0 =>
    by_cases hcond : (p0.store == store && p0.active) = true
    · have hc2 := hcond
      rw [Bool.and_eq_true, beq_iff_eq] at hc2
      exact ⟨p0, by simp [hsp0, hcond], hc2.1, hc2.2⟩
    · simp [hsp0, hcond] at hsome

/-- C2 witness: the amended selection rule evaluated on the concrete
two-row tie, where it picks the second row. -/
theorem c2_witness :
    lastMaxSelect (mappingQuery [c2RowA, c2RowB] ["c-apple"] "tesco") "c-apple"
        = jsGet (buildMappingByCanonical (mappingQuery [c2RowA, c2RowB] ["c-apple"] "tesco"))
            "c-apple"
      ∧ ∃ p, c2RowB.store_products = some p ∧ p.store = "tesco" ∧ p.active = true := by
  refine ⟨(c2_last_max_selected [c2RowA, c2RowB] ["c-apple"] "tesco" "c-apple").1.symm, ?_⟩
  exact (c2_last_max_selected [c2RowA, c2RowB] ["c-apple"] "tesco" "c-apple").2 c2RowB (by decide)

/-- C3 counterexample: a request with 5 items (four duplicates of one
resolvable ingredient plus one unknown) yields one missing item; the claimed
ratio `missing / totalRequestedItems = 1/5` is not above `0.2`, yet the
"basket incomplete" warning IS present, because the code divides by
`aggregated.size + baseMissingItems.length = 2`, giving `1/2`. -/
theorem c3_counterexample :
    c3Body.items.length = 5
      ∧ (handleQuote c3Backend 1000 c3Body).toOption.map
          (fun r => r.quotes.map (fun q => (q.missingItems.length, q.warnings)))
          = some [(1, [basketIncompleteMsg])]
      ∧ ¬ ((1 : ℚ) / 5 > (1 : ℚ) / 5) := by
  exact ⟨rfl, by decide, by norm_num⟩

/-- C3 amended: `missingRatio` is `missingItems.length` divided by the number
of distinct aggregated canonical items plus the number of unresolvable base
entries (`aggregated.size + baseMissingItems.length`), taken as `0` when that
denominator is `0`; the "basket incomplete" warning is present exactly when
that ratio exceeds `0.2`. -/
theorem c3_missing_fraction_warning (b : Backend) (cp : String) (now : ℚ)
    (agg : List (String × CanonicalItemRow × ℚ)) (base : List MissingItem)
    (ids : List String) (store : String) (q : StoreQuote)
    (h : quoteStore b cp now agg base ids store = Except.ok q) :
    basketIncompleteMsg ∈ q.warnings
      ↔ (agg.length + base.length ≠ 0
          ∧ (1 : ℚ) / 5 < (q.missingItems.length : ℚ) / ((agg.length + base.length : ℕ) : ℚ)) := by
  obtain ⟨mbc, pc, res, _, _, hmiss, _, _, _, hwarn⟩ := quoteStore_ok _ _ _ _ _ _ _ _ h
  have hne : basketIncompleteMsg ≠ stalePricesMsg := by decide
  rw [hwarn, hmiss, List.mem_append]
  have hone : (mkRat 1 5 : ℚ) = 1 / 5 := by
    rw [Rat.mkRat_eq_div]
    norm_num
  by_cases hT : agg.length + base.length = 0
  · rw [if_pos hT]
    rw [if_neg (fun hc => by rw [qlt_iff, hone] at hc; norm_num at hc)]
    constructor
    · rintro (hin | hin)
      · simp at hin
      · by_cases hs : 0 < res.staleCount
        · rw [if_pos hs, List.mem_singleton] at hin
          exact absurd hin hne
        · rw [if_neg hs] at hin
          simp at hin
    · rintro ⟨hTne, _⟩
      exact absurd hT hTne
  · rw [if_neg hT]
    by_cases hlt : qlt (mkRat 1 5)
        (qdiv (res.missing.length : ℚ) ((agg.length + base.length : ℕ) : ℚ)) = true
    · rw [if_pos hlt]
      rw [qlt_iff, hone, qdiv_eq] at hlt
      exact ⟨fun _ => ⟨hT, hlt⟩, fun _ => Or.inl (List.mem_singleton.mpr rfl)⟩
    · rw [if_neg hlt]
      rw [qlt_iff, hone, qdiv_eq] at hlt
      constructor
      · rintro (hin | hin)
        · simp at hin
        · by_cases hs : 0 < res.staleCount
          · rw [if_pos hs, List.mem_singleton] at hin
            exact absurd hin hne
          · rw [if_neg hs] at hin
            simp at hin
      · rintro ⟨_, hineq⟩
        exact absurd hineq hlt

/-- C3 witness: the amended warning rule instantiated on the concrete
five-item fixture store quote. -/
theorem c3_witness :
    ∃ q, quoteStore c3Backend "GLOBAL" 1000
        (aggregateItems (buildCanonicalLookup [fxApple]) c3Body.items).1
        (aggregateItems (buildCanonicalLookup [fxApple]) c3Body.items).2
        ((aggregateItems (buildCanonicalLookup [fxApple]) c3Body.items).1.map Prod.fst) "tesco"
        = Except.ok q
      ∧ (basketIncompleteMsg ∈ q.warnings
          ↔ ((aggregateItems (buildCanonicalLookup [fxApple]) c3Body.items).1.length
                + (aggregateItems (buildCanonicalLookup [fxApple]) c3Body.items).2.length ≠ 0
              ∧ (1 : ℚ) / 5 < (q.missingItems.length : ℚ)
                  / (((aggregateItems (buildCanonicalLookup [fxApple]) c3Body.items).1.length
                      + (aggregateItems (buildCanonicalLookup [fxApple]) c3Body.items).2.length
                        : ℕ) : ℚ))) := by
  cases hq : quoteStore c3Backend "GLOBAL" 1000
      (aggregateItems (buildCanonicalLookup [fxApple]) c3Body.items).1
      (aggregateItems (buildCanonicalLookup [fxApple]) c3Body.items).2
      ((aggregateItems (buildCanonicalLookup [fxApple]) c3Body.items).1.map Prod.fst) "tesco" with
  | error e =>
    have hsome : (quoteStore c3Backend "GLOBAL" 1000
        (aggregateItems (buildCanonicalLookup [fxApple]) c3Body.items).1
        (aggregateItems (buildCanonicalLookup [fxApple]) c3Body.items).2
        ((aggregateItems (buildCanonicalLookup [fxApple]) c3Body.items).1.map Prod.fst)
        "tesco").toOption.isSome = true := by decide
    rw [hq] at hsome
    simp [Except.toOption] at hsome
  | ok q =>
    exact ⟨q, rfl, c3_missing_fraction_warning _ _ _ _ _ _ _ _ hq⟩

/-- C4 counterexample: with a cached unit price present and equal to `0`
(required quantity 400, pack price 2), the emitted line item carries
`unitPrice = null` — not the cached `0` — and `consumedEstimate = lineTotal
= 2` rather than `requiredQuantity * 0 = 0`: JavaScript truthiness treats the
present `0` like `null`, so the claim as stated is false. -/
theorem c4_counterexample :
    (handleQuote c4Backend 1000 c4Body).toOption.map
        (fun r => r.quotes.map (fun q => q.lineItems.map
          (fun li => (li.unitPrice, li.consumedEstimate, li.lineTotal))))
        = some [[((none : Option ℚ), (2 : ℚ), (2 : ℚ))]]
      ∧ (fxPrice "sp-t" (some 0) 2000).unit_price = some 0
      ∧ (2 : ℚ) ≠ 400 * 0
      ∧ (none : Option ℚ) ≠ some 0 := by
  exact ⟨by decide, rfl, by norm_num, by decide⟩

/-- C4 amended: the computed unit price is
`cachedUnitPrice ?? (packSize > 0 ? price / packSize : null)` as specified,
but both the emitted `unitPrice` field and the consumed estimate test it for
JavaScript truthiness: when it is non-null AND non-zero, `unitPrice` reports
it and `consumedEstimate = requiredQuantity * unitPrice`; when it is null OR
equal to `0`, `unitPrice` is reported as null and `consumedEstimate` falls
back to `lineTotal`. -/
theorem c4_unit_price_truthy (mbc : List (String × StoreMappingRow))
    (pc : List (String × PriceCacheRow)) (now : ℚ) (entry : String × CanonicalItemRow × ℚ)
    (li : LineItem) (h : processEntry mbc pc now entry = ItemOutcome.line li) :
    ∃ mapping sp priceRow,
      jsGet mbc entry.1 = some mapping
      ∧ mapping.store_products = some sp
      ∧ jsGet pc sp.id = some priceRow
      ∧ (computedUnitPrice priceRow sp.pack_size_value ≠ none
          ∧ computedUnitPrice priceRow sp.pack_size_value ≠ some 0 →
            li.unitPrice = computedUnitPrice priceRow sp.pack_size_value
            ∧ li.consumedEstimate
                = entry.2.2 * (computedUnitPrice priceRow sp.pack_size_value).getD 0)
      ∧ (computedUnitPrice priceRow sp.pack_size_value = none
          ∨ computedUnitPrice priceRow sp.pack_size_value = some 0 →
            li.unitPrice = none ∧ li.consumedEstimate = li.lineTotal) := by
  rw [processEntry] at h
  split at h
  · exact absurd h (by simp)
  · next mapping hmap =>
    split at h
    · exact absurd h (by simp)
    · next sp hsp =>
      split at h
      · exact absurd h (by simp)
      · next hunit =>
        split at h
        · exact absurd h (by simp)
        · next priceRow hpr =>
          refine ⟨mapping, sp, priceRow, hmap, hsp, hpr, ?_, ?_⟩
          all_goals
            injection h with h
            subst h
            have hcup : computedUnitPrice priceRow sp.pack_size_value
                = (match priceRow.unit_price with
                   | some up => some up
                   | none =>
                     if qlt 0 sp.pack_size_value then some (qdiv priceRow.price sp.pack_size_value)
                     else none) := by
              rw [computedUnitPrice]
              cases priceRow.unit_price with
              | some up => rfl
              | none =>
                by_cases hps : 0 < sp.pack_size_value
                · rw [if_pos hps, if_pos ((qlt_iff _ _).mpr hps), qdiv_eq]
                · rw [if_neg hps, if_neg (fun hc => hps ((qlt_iff _ _).mp hc))]
            rw [hcup]
          · intro hcond
            have htruthy : jsTruthy (match priceRow.unit_price with
                | some up => some up
                | none =>
                  if qlt 0 sp.pack_size_value then some (qdiv priceRow.price sp.pack_size_value)
                  else none) = true := by
              rcases hu : (match priceRow.unit_price with
                | some up => some up
                | none =>
                  if qlt 0 sp.pack_size_value then some (qdiv priceRow.price sp.pack_size_value)
                  else none) with _ | v
              · exact absurd hu hcond.1
              · rw [hu]
                simp only [jsTruthy, decide_eq_true_eq]
                intro hv
                exact hcond.2 (by rw [hu, hv])
            simp only [htruthy, if_true, qmul_eq]
            constructor <;> trivial
          · intro hcond
            have htruthy : jsTruthy (match priceRow.unit_price with
                | some up => some up
                | none =>
                  if qlt 0 sp.pack_size_value then some (qdiv priceRow.price sp.pack_size_value)
                  else none) = false := by
              rcases hcond with hcond | hcond
              · rw [hcond]
                rfl
              · rw [hcond]
                decide
            simp [htruthy]

/-- C4 witness: the truthiness rule applied to the concrete zero-unit-price
line item, whose computed unit price is the present-but-zero cached value. -/
theorem c4_witness :
    ∃ mapping sp priceRow,
      jsGet fxMbc "c-apple" = some mapping
      ∧ mapping.store_products = some sp
      ∧ jsGet [("sp-t", fxPrice "sp-t" (some 0) 2000)] sp.id = some priceRow
      ∧ (computedUnitPrice priceRow sp.pack_size_value ≠ none
          ∧ computedUnitPrice priceRow sp.pack_size_value ≠ some 0 →
            ({ canonicalItemId := "c-apple", canonicalName := "apple", storeProductId := "sp-t",
               productTitle := "Apple 1kg", packSize := { value := 1000, unit := UnitType.GRAM },
               required := { value := 400, unit := UnitType.GRAM }, packsNeeded := 1, price := 2,
               unitPrice := none, lineTotal := 2, consumedEstimate := 2, currency := "GBP",
               promoText := none, inStock := some true, productUrl := none, imageUrl := none,
               priceSource := "cached", fetchedAt := 100 } : LineItem).unitPrice
                = computedUnitPrice priceRow sp.pack_size_value
            ∧ ({ canonicalItemId := "c-apple", canonicalName := "apple", storeProductId := "sp-t",
                 productTitle := "Apple 1kg", packSize := { value := 1000, unit := UnitType.GRAM },
                 required := { value := 400, unit := UnitType.GRAM }, packsNeeded := 1, price := 2,
                 unitPrice := none, lineTotal := 2, consumedEstimate := 2, currency := "GBP",
                 promoText := none, inStock := some true, productUrl := none, imageUrl := none,
                 priceSource := "cached", fetchedAt := 100 } : LineItem).consumedEstimate
                = fxEntryApple.2.2 * (computedUnitPrice priceRow sp.pack_size_value).getD 0)
      ∧ (computedUnitPrice priceRow sp.pack_size_value = none
          ∨ computedUnitPrice priceRow sp.pack_size_value = some 0 →
            ({ canonicalItemId := "c-apple", canonicalName := "apple", storeProductId := "sp-t",
               productTitle := "Apple 1kg", packSize := { value := 1000, unit := UnitType.GRAM },
               required := { value := 400, unit := UnitType.GRAM }, packsNeeded := 1, price := 2,
               unitPrice := none, lineTotal := 2, consumedEstimate := 2, currency := "GBP",
               promoText := none, inStock := some true, productUrl := none, imageUrl := none,
               priceSource := "cached", fetchedAt := 100 } : LineItem).unitPrice = none
            ∧ ({ canonicalItemId := "c-apple", canonicalName := "apple", storeProductId := "sp-t",
                 productTitle := "Apple 1kg", packSize := { value := 1000, unit := UnitType.GRAM },
                 required := { value := 400, unit := UnitType.GRAM }, packsNeeded := 1, price := 2,
                 unitPrice := none, lineTotal := 2, consumedEstimate := 2, currency := "GBP",
                 promoText := none, inStock := some true, productUrl := none, imageUrl := none,
                 priceSource := "cached", fetchedAt := 100 } : LineItem).consumedEstimate
                = ({ canonicalItemId := "c-apple", canonicalName := "apple", storeProductId := "sp-t",
                     productTitle := "Apple 1kg",
                     packSize := { value := 1000, unit := UnitType.GRAM },
                     required := { value := 400, unit := UnitType.GRAM }, packsNeeded := 1,
                     price := 2, unitPrice := none, lineTotal := 2, consumedEstimate := 2,
                     currency := "GBP", promoText := none, inStock := some true,
                     productUrl := none, imageUrl := none, priceSource := "cached",
                     fetchedAt := 100 } : LineItem).lineTotal) :=
  c4_unit_price_truthy fxMbc [("sp-t", fxPrice "sp-t" (some 0) 2000)] 1000 fxEntryApple
    { canonicalItemId := "c-apple", canonicalName := "apple", storeProductId := "sp-t",
      productTitle := "Apple 1kg", packSize := { value := 1000, unit := UnitType.GRAM },
      required := { value := 400, unit := UnitType.GRAM }, packsNeeded := 1, price := 2,
      unitPrice := none, lineTotal := 2, consumedEstimate := 2, currency := "GBP",
      promoText := none, inStock := some true, productUrl := none, imageUrl := none,
      priceSource := "cached", fetchedAt := 100 }
    (by decide)

/-- C5: a price-cache entry whose `ttl_expires_at` is `<= now` is still used
for pricing — the item becomes a line item with `priceSource = "stale"`
(not a missing item) priced from that entry — any quote containing a stale
line has a non-empty `warnings` array, and only a genuinely absent cache row
produces a `missingItems` entry, with reason `no_cached_price`. -/
theorem c5_stale_still_priced :
    (∀ (mbc : List (String × StoreMappingRow)) (pc : List (String × PriceCacheRow)) (now : ℚ)
        (entry : String × CanonicalItemRow × ℚ) (mapping : StoreMappingRow)
        (sp : StoreProductRow) (priceRow : PriceCacheRow),
        jsGet mbc entry.1 = some mapping →
        mapping.store_products = some sp →
        sp.pack_size_unit = entry.2.1.unit_type →
        jsGet pc sp.id = some priceRow →
        priceRow.ttl_expires_at ≤ now →
        ∃ li, processEntry mbc pc now entry = ItemOutcome.line li
          ∧ li.priceSource = "stale" ∧ li.price = priceRow.price)
      ∧ (∀ (b : Backend) (cp : String) (now : ℚ)
          (agg : List (String × CanonicalItemRow × ℚ)) (base : List MissingItem)
          (ids : List String) (store : String) (q : StoreQuote),
          quoteStore b cp now agg base ids store = Except.ok q →
          (∃ li ∈ q.lineItems, li.priceSource = "stale") → q.warnings ≠ [])
      ∧ (∀ (mbc : List (String × StoreMappingRow)) (pc : List (String × PriceCacheRow)) (now : ℚ)
          (entry : String × CanonicalItemRow × ℚ) (mapping : StoreMappingRow)
          (sp : StoreProductRow),
          jsGet mbc entry.1 = some mapping →
          mapping.store_products = some sp →
          sp.pack_size_unit = entry.2.1.unit_type →
          jsGet pc sp.id = none →
          processEntry mbc pc now entry
            = ItemOutcome.miss { ingredientName := entry.2.1.name, reason := "no_cached_price" }) := by
  refine ⟨?_, ?_, ?_⟩
  · intro mbc pc now entry mapping sp priceRow hm hsp hu hpc httl
    have hfresh : isCacheFresh priceRow now = false := by
      by_cases hq : qlt now priceRow.ttl_expires_at = true
      · exact absurd ((qlt_iff _ _).mp hq) (not_lt.mpr httl)
      · rw [isCacheFresh]
        simpa using hq
    rw [processEntry, hm]
    simp only [hsp]
    rw [if_neg (fun hc => hc hu), hpc]
    simp only [hfresh, if_false]
    exact ⟨_, rfl, rfl, rfl⟩
  · intro b cp now agg base ids store q hok ⟨li, hli, hstale⟩
    obtain ⟨mbc, pc, res, _, hres, _, _, hlines, _, hwarn⟩ := quoteStore_ok _ _ _ _ _ _ _ _ hok
    have hcount : res.staleCount = res.lineItems.countP (fun l => l.priceSource == "stale") := by
      rw [hres]
      exact staleCount_countP mbc pc now agg (QuoteAcc.start base) (by rfl)
    have hpos : 0 < res.staleCount := by
      rw [hcount, List.countP_pos_iff]
      exact ⟨li, by rw [← hlines]; exact hli, by rw [beq_iff_eq]; exact hstale⟩
    rw [hwarn, if_pos hpos]
    intro hc
    rcases List.append_eq_nil.mp hc with ⟨_, h2⟩
    exact absurd h2 (by simp)
  · intro mbc pc now entry mapping sp hm hsp hu hpc
    rw [processEntry, hm]
    simp only [hsp]
    rw [if_neg (fun hc => hc hu), hpc]

/-- C5 witness: the stale fixture row (TTL 500 at `now = 1000`) still yields
a line item, flagged stale and priced from the cached row. -/
theorem c5_witness :
    ∃ li, processEntry fxMbc fxStalePc 1000 fxEntryApple = ItemOutcome.line li
      ∧ li.priceSource = "stale" ∧ li.price = (fxPrice "sp-t" none 500).price :=
  c5_stale_still_priced.1 fxMbc fxStalePc 1000 fxEntryApple
    (fxMapRow "sp-t" "tesco" 1) (fxProduct "sp-t" "tesco") (fxPrice "sp-t" none 500)
    (by decide) (by decide) (by decide) (by decide) (by decide)

theorem forall2_basket_map (qs qs' : List StoreQuote)
    (h : List.Forall₂ (fun a b => a.basketTotal = b.basketTotal) qs qs') :
    qs'.map (fun q => q.basketTotal) = qs.map (fun q => q.basketTotal) := by
  induction h with
  | nil => rfl
  | cons hab _ ih => simp [ih, hab]

/-- C7: a request item whose normalized ingredient name resolves to no
canonical item appears in the `missingItems` of every requested store with reason
`no_canonical_match`, and it contributes nothing to any
`basketTotal`: dropping it from the request leaves every
`basketTotal` unchanged. -/
theorem c7_unmatched_reported_not_priced
    (b : Backend) (now : ℚ) (stores : List String) (pcode : Option String)
    (pre post : List QuoteRequestItem) (item : QuoteRequestItem)
    (canonRows : List CanonicalItemRow) (resp : QuoteResponse)
    (hc : b.canonicalResult = Except.ok canonRows)
    (hlk : jsGet (buildCanonicalLookup canonRows) (normalizeKey item.ingredientName) = none)
    (hok : handleQuote b now ⟨stores, pcode, pre ++ item :: post⟩ = Except.ok resp) :
    (∀ q ∈ resp.quotes,
        ({ ingredientName := item.ingredientName, reason := "no_canonical_match" } : MissingItem)
          ∈ q.missingItems)
      ∧ (pre ++ post ≠ [] →
          ∃ resp', handleQuote b now ⟨stores, pcode, pre ++ post⟩ = Except.ok resp'
            ∧ resp'.quotes.map (fun q => q.basketTotal)
                = resp.quotes.map (fun q => q.basketTotal)) := by
  obtain ⟨canonRows', quotes, hc', hm, hq⟩ := handleQuote_ok b now _ resp hok
  rw [hc] at hc'
  injection hc' with hcr
  subst hcr
  simp only at hm
  have hAF : aggFoldA (buildCanonicalLookup canonRows) [] (pre ++ item :: post)
      = aggFoldA (buildCanonicalLookup canonRows) [] (pre ++ post) := by
    rw [aggFoldA, aggFoldA, List.foldl_append, List.foldl_append, List.foldl_cons]
    have : aggStepA (buildCanonicalLookup canonRows)
        (List.foldl (aggStepA (buildCanonicalLookup canonRows)) [] pre) item
        = List.foldl (aggStepA (buildCanonicalLookup canonRows)) [] pre := by
      simp [aggStepA, hlk]
    rw [this]
  have hMissF : missOf (buildCanonicalLookup canonRows) (pre ++ item :: post)
      = missOf (buildCanonicalLookup canonRows) pre
          ++ (({ ingredientName := item.ingredientName, reason := "no_canonical_match" }
                : MissingItem) :: missOf (buildCanonicalLookup canonRows) post) := by
    rw [missOf, missOf, missOf, List.filterMap_append, List.filterMap_cons]
    rw [show aggItemMiss (buildCanonicalLookup canonRows) item
          = some { ingredientName := item.ingredientName, reason := "no_canonical_match" } by
        rw [aggItemMiss, hlk]]
  constructor
  · intro q hq'
    rw [hq] at hq'
    obtain ⟨store, hst, hqs⟩ := mapM_ok_mem _ _ _ hm q hq'
    obtain ⟨mbc, pc, res, _, hres, hmiss, _, _, _, _⟩ := quoteStore_ok _ _ _ _ _ _ _ _ hqs
    rw [hmiss, hres, quoteFold_missing]
    apply List.mem_append_left
    show _ ∈ (aggregateItems (buildCanonicalLookup canonRows) (pre ++ item :: post)).2
    rw [aggregateItems_eq]
    show _ ∈ missOf (buildCanonicalLookup canonRows) (pre ++ item :: post)
    rw [hMissF]
    exact List.mem_append_right _ (List.mem_cons_self _ _)
  · intro hne
    have hval : (stores.isEmpty || (pre ++ item :: post).isEmpty) = false := by
      by_cases hv : (stores.isEmpty || (pre ++ item :: post).isEmpty) = true
      · exfalso
        simp only [handleQuote] at hok
        rw [if_pos (by simpa using hv)] at hok
        exact absurd hok (by simp)
      · simpa using hv
    have hstoresne : stores.isEmpty = false := by
      rcases Bool.or_eq_false_iff.mp hval with ⟨h1, _⟩
      exact h1
    have hredval : (stores.isEmpty || (pre ++ post).isEmpty) = false := by
      rw [hstoresne, Bool.false_or]
      cases h2 : (pre ++ post).isEmpty with
      | true => exact absurd (List.isEmpty_iff.mp h2) hne
      | false => rfl
    have hA1 : (aggregateItems (buildCanonicalLookup canonRows) (pre ++ item :: post)).1
        = (aggregateItems (buildCanonicalLookup canonRows) (pre ++ post)).1 := by
      rw [aggregateItems_eq, aggregateItems_eq]
      simpa using hAF
    rw [hA1] at hm
    have hstore : ∀ (s : String) (bf : StoreQuote),
        quoteStore b ((extractPostcodeArea pcode).getD "GLOBAL") now
          (aggregateItems (buildCanonicalLookup canonRows) (pre ++ post)).1
          (aggregateItems (buildCanonicalLookup canonRows) (pre ++ item :: post)).2
          ((aggregateItems (buildCanonicalLookup canonRows) (pre ++ post)).1.map Prod.fst) s
          = Except.ok bf →
        ∃ bg, quoteStore b ((extractPostcodeArea pcode).getD "GLOBAL") now
            (aggregateItems (buildCanonicalLookup canonRows) (pre ++ post)).1
            (aggregateItems (buildCanonicalLookup canonRows) (pre ++ post)).2
            ((aggregateItems (buildCanonicalLookup canonRows) (pre ++ post)).1.map Prod.fst) s
            = Except.ok bg
          ∧ bf.basketTotal = bg.basketTotal := by
      intro s bf hf
      simp only [quoteStore] at hf ⊢
      cases hme : b.mappingError s with
      | some e =>
        rw [hme] at hf
        exact absurd hf (by simp)
      | none =>
        rw [hme] at hf
        simp only at hf ⊢
        cases hP : fetchPriceRows b s
            (storeIdsOf (buildMappingByCanonical (mappingQuery b.mappingTable
              ((aggregateItems (buildCanonicalLookup canonRows) (pre ++ post)).1.map Prod.fst) s)))
            ((extractPostcodeArea pcode).getD "GLOBAL") with
        | error e =>
          rw [hP] at hf
          exact absurd hf (by simp)
        | ok cacheRows =>
          rw [hP] at hf
          simp only [Except.ok.injEq] at hf ⊢
          refine ⟨_, rfl, ?_⟩
          rw [← hf]
          show round2 _ = round2 _
          rw [quoteFold_basket _ _ now _ (QuoteAcc.start
                (aggregateItems (buildCanonicalLookup canonRows) (pre ++ item :: post)).2),
              quoteFold_basket _ _ now _ (QuoteAcc.start
                (aggregateItems (buildCanonicalLookup canonRows) (pre ++ post)).2)]
          rfl
    obtain ⟨quotes', hm', hf2⟩ :=
      mapM_ok_rel _ _ (fun a bq => a.basketTotal = bq.basketTotal) stores quotes hm
        (fun s _ bf hbf => hstore s bf hbf)
    refine ⟨{ currency := "GBP", quotes := quotes',
              meta := { postcodeArea := extractPostcodeArea pcode, ttlHours := 24 } }, ?_, ?_⟩
    · simp only [handleQuote]
      rw [if_neg (by simp [hredval]), hc]
      simp only at hm' ⊢
      rw [hm']
    · rw [hq]
      exact forall2_basket_map quotes quotes' hf2

/-- C7 witness: the concrete request with one resolvable item and one unknown
item, against the one-store fixture backend. -/
theorem c7_witness :
    ∃ resp, handleQuote c7Backend 1000 ⟨["y"], none, [fxItemApple] ++ fxItemZzz :: []⟩
        = Except.ok resp
      ∧ (∀ q ∈ resp.quotes,
          ({ ingredientName := "zzz", reason := "no_canonical_match" } : MissingItem)
            ∈ q.missingItems)
      ∧ ([fxItemApple] ++ ([] : List QuoteRequestItem) ≠ [] →
          ∃ resp', handleQuote c7Backend 1000 ⟨["y"], none, [fxItemApple] ++ []⟩ = Except.ok resp'
            ∧ resp'.quotes.map (fun q => q.basketTotal)
                = resp.quotes.map (fun q => q.basketTotal)) := by
  cases hres : handleQuote c7Backend 1000 ⟨["y"], none, [fxItemApple] ++ fxItemZzz :: []⟩ with
  | error e =>
    have hsome : (handleQuote c7Backend 1000
        ⟨["y"], none, [fxItemApple] ++ fxItemZzz :: []⟩).toOption.isSome = true := by decide
    rw [hres] at hsome
    simp [Except.toOption] at hsome
  | ok resp =>
    obtain ⟨h1, h2⟩ := c7_unmatched_reported_not_priced c7Backend 1000 ["y"] none
      [fxItemApple] [] fxItemZzz [fxApple] resp rfl (by decide) hres
    exact ⟨resp, rfl, h1, h2⟩

/-- C8: unit normalization is total and implements the fixed case-insensitive
table (g/gram/grams → GRAM; kg → GRAM with value × 1000; ml → ML; l → ML ×
1000; tsp → ML × 5; tbsp → ML × 15; piece/pieces/clove/cloves → COUNT;
everything else → COUNT with the value unchanged), in particular
`normalize("kg", 2) = (GRAM, 2000)`, `normalize("tbsp", 3) = (ML, 45)` and
`normalize("bunch", 1) = (COUNT, 1)`. -/
theorem c8_normalize_unit_table :
    (∀ (u : String) (v : ℚ), normalizeUnit u v = specNormalizeUnit u v)
      ∧ normalizeUnit "kg" 2 = (UnitType.GRAM, 2000)
      ∧ normalizeUnit "tbsp" 3 = (UnitType.ML, 45)
      ∧ normalizeUnit "bunch" 1 = (UnitType.COUNT, 1) := by
  refine ⟨?_, by decide, by decide, by decide⟩
  intro u v
  rw [normalizeUnit, specNormalizeUnit, specUnitTable]
  generalize normalizeKey u = n
  by_cases h1 : n = "g"
  · simp [h1]
  by_cases h2 : n = "gram"
  · simp [h1, h2, Ne.symm h1]
  by_cases h3 : n = "grams"
  · simp [h1, h2, h3, Ne.symm h1, Ne.symm h2]
  by_cases h4 : n = "kg"
  · simp [h1, h2, h3, h4, Ne.symm h1, Ne.symm h2, Ne.symm h3, qmul_eq, mul_comm]
  by_cases h5 : n = "ml"
  · simp [h1, h2, h3, h4, h5, Ne.symm h1, Ne.symm h2, Ne.symm h3, Ne.symm h4]
  by_cases h6 : n = "l"
  · simp [h1, h2, h3, h4, h5, h6, Ne.symm h1, Ne.symm h2, Ne.symm h3, Ne.symm h4, Ne.symm h5,
      qmul_eq, mul_comm]
  by_cases h7 : n = "tsp"
  · simp [h1, h2, h3, h4, h5, h6, h7, Ne.symm h1, Ne.symm h2, Ne.symm h3, Ne.symm h4, Ne.symm h5,
      Ne.symm h6, qmul_eq, mul_comm]
  by_cases h8 : n = "tbsp"
  · simp [h1, h2, h3, h4, h5, h6, h7, h8, Ne.symm h1, Ne.symm h2, Ne.symm h3, Ne.symm h4,
      Ne.symm h5, Ne.symm h6, Ne.symm h7, qmul_eq, mul_comm]
  by_cases h9 : n = "piece"
  · simp [h1, h2, h3, h4, h5, h6, h7, h8, h9, Ne.symm h1, Ne.symm h2, Ne.symm h3, Ne.symm h4,
      Ne.symm h5, Ne.symm h6, Ne.symm h7, Ne.symm h8]
  by_cases h10 : n = "pieces"
  · simp [h1, h2, h3, h4, h5, h6, h7, h8, h9, h10, Ne.symm h1, Ne.symm h2, Ne.symm h3, Ne.symm h4,
      Ne.symm h5, Ne.symm h6, Ne.symm h7, Ne.symm h8, Ne.symm h9]
  by_cases h11 : n = "clove"
  · simp [h1, h2, h3, h4, h5, h6, h7, h8, h9, h10, h11, Ne.symm h1, Ne.symm h2, Ne.symm h3,
      Ne.symm h4, Ne.symm h5, Ne.symm h6, Ne.symm h7, Ne.symm h8, Ne.symm h9, Ne.symm h10]
  by_cases h12 : n = "cloves"
  · simp [h1, h2, h3, h4, h5, h6, h7, h8, h9, h10, h11, h12, Ne.symm h1, Ne.symm h2, Ne.symm h3,
      Ne.symm h4, Ne.symm h5, Ne.symm h6, Ne.symm h7, Ne.symm h8, Ne.symm h9, Ne.symm h10,
      Ne.symm h11]
  · simp [h1, h2, h3, h4, h5, h6, h7, h8, h9, h10, h11, h12, Ne.symm h1, Ne.symm h2, Ne.symm h3,
      Ne.symm h4, Ne.symm h5, Ne.symm h6, Ne.symm h7, Ne.symm h8, Ne.symm h9, Ne.symm h10,
      Ne.symm h11, Ne.symm h12]

/-- C9: aggregation is order-independent — permuting the request items leaves
the aggregated required total of every canonical item unchanged, and permuting the
menu (recipe/servings pairs) leaves the aggregated quantity of every grocery key
unchanged. -/
theorem c9_aggregation_perm_invariant :
    (∀ (lookup : List (String × CanonicalItemRow)) (items items' : List QuoteRequestItem),
        items.Perm items' → ∀ cid,
          (jsGet (aggregateItems lookup items).1 cid).map (fun p => p.2)
            = (jsGet (aggregateItems lookup items').1 cid).map (fun p => p.2))
      ∧ (∀ (getRecipe : String → Option AppRecipe) (menu menu' : List AppMenuItem),
          menu.Perm menu' → ∀ key,
            (jsGet (groceryAgg getRecipe menu) key).map (fun g => g.quantity)
              = (jsGet (groceryAgg getRecipe menu') key).map (fun g => g.quantity)) := by
  constructor
  · intro lookup items items' hp cid
    rw [aggregateItems_eq, aggregateItems_eq]
    show (jsGet (aggFoldA lookup [] items) cid).map _
      = (jsGet (aggFoldA lookup [] items') cid).map _
    rw [aggValue_invariant, aggValue_invariant]
    exact addOpt_perm _ _ _ (hp.filterMap _)
  · intro getRecipe menu menu' hp key
    rw [groceryAgg, groceryAgg, gMenu_invariant, gMenu_invariant]
    exact addOpt_perm _ _ _ ((hp.map _).flatten)

/-- C9 witness: swapping the two concrete request items (a name and an alias
of the same canonical item) leaves the aggregated total unchanged. -/
theorem c9_witness :
    (jsGet (aggregateItems (buildCanonicalLookup [fxApple])
        [fxItemApple, fxItemAlias]).1 "c-apple").map (fun p => p.2)
      = (jsGet (aggregateItems (buildCanonicalLookup [fxApple])
          [fxItemAlias, fxItemApple]).1 "c-apple").map (fun p => p.2) :=
  c9_aggregation_perm_invariant.1 _ _ _ (List.Perm.swap fxItemAlias fxItemApple []) "c-apple"
